import Mathlib

/-! # tinyows request admission: `src/ows/ows_request.c`

A shallow embedding of `ows_schema_validation`, `ows_request_check_version`
and `ows_request_check`, and theorems about them.

Conventions of the embedding.

* A `buffer` (pointer, `use`, `buf`) is the list of its characters; a `NULL`
  pointer is `none`.
* `ows_error` writes an exception report and ends the process: it never hands
  control back.  A function that may call it returns `Except ows_err _`, and
  the first call of `ows_error` is the result.
* `ows_request_check` is called with `or == o->request`, so there is one
  request record.
* Helpers of the repository that live outside `ows_request.c` and the C
  library are either fields of `ows_env` or definitions marked as modelled.
-/

namespace TinyOWS

/-! ## Buffers and their helpers -/

/-- The characters of a tinyows `buffer`. -/
abbrev buffer := List Char

/-- Modelled from the spec: `buffer_cmp` (struct/buffer.c, not in
`ows_request.c`) is exact equality of a buffer with a C string. -/
def buffer_cmp (b : buffer) (s : String) : Bool :=
  b == s.toList

/-- Modelled from the spec: `buffer_case_cmp` (struct/buffer.c) is equality
ignoring letter case: same length and the same characters after `toupper`. -/
def buffer_case_cmp (b : buffer) (s : String) : Bool :=
  b.map Char.toUpper == s.toList.map Char.toUpper

/-- The request parameters: an `array` of key/value buffers in order. -/
abbrev array := List (buffer × buffer)

/-- Modelled from the spec: `array_is_key` (struct/array.c) is the
case-insensitive `has(key)` of the parameter accessor. -/
def array_is_key (a : array) (key : String) : Bool :=
  a.any fun kv => buffer_case_cmp kv.1 key

/-- Modelled from the spec: `array_get` (struct/array.c) is the
case-insensitive `get(key)`: the value of the first entry whose key
matches, `none` (a `NULL` pointer) when there is none. -/
def array_get : array → String → Option buffer
  | [], _ => none
  | kv :: rest, key => if buffer_case_cmp kv.1 key then some kv.2 else array_get rest key

/-- Modelled from the spec: `list_explode` (struct/list.c) splits a buffer
into the segments between the separator characters. -/
def list_explode (sep : Char) : buffer → List buffer
  | [] => [[]]
  | c :: cs =>
    if c = sep then [] :: list_explode sep cs
    else
      match list_explode sep cs with
      | [] => [[c]]
      | seg :: segs => (c :: seg) :: segs

/-! ## POSIX extended regular expressions (`check_regexp`) -/

/-- One character position of a pattern. -/
inductive re_atom where
  | chr (c : Char)
  | any
  | set (neg : Bool) (ranges : List (Char × Char))
  deriving DecidableEq, Repr

/-- Repetition attached to an atom. -/
inductive re_rep where
  | one | star | plus | opt
  deriving DecidableEq, Repr

/-- An atom with its repetition. -/
structure re_item where
  atom : re_atom
  rep : re_rep
  deriving DecidableEq, Repr

/-- A compiled pattern: anchored at the start, the items, anchored at the end. -/
structure regex_t where
  bol : Bool
  items : List re_item
  eol : Bool
  deriving DecidableEq, Repr

/-- Does the atom accept the character. -/
def re_atom.accepts : re_atom → Char → Bool
  | .chr c, x => x == c
  | .any, _ => true
  | .set neg ranges, x => (ranges.any fun r => decide (r.1.toNat ≤ x.toNat ∧ x.toNat ≤ r.2.toNat)) != neg

/-- The members of a bracket expression up to the closing bracket, and the
rest of the pattern. A `]` in the first place (`first`) is a member, a `-`
in the first or last place is a member, `a-b` is a range and a range whose
ends are out of order does not compile. The classes `[:name:]`, `[.x.]` and
`[=x=]` are outside the modelled fragment and give `none`. -/
def re_parse_set : Bool → Nat → List Char → Option (List (Char × Char) × List Char)
  | _, _, [] => none
  | _, 0, _ :: _ => none
  | first, fuel + 1, c :: rest =>
    if c = ']' ∧ first = false then some ([], rest)
    else if c = '[' ∧ (rest.head? = some ':' ∨ rest.head? = some '.' ∨ rest.head? = some '=') then
      none
    else
      match rest with
      | '-' :: d :: rest2 =>
        if d = ']' then some ([(c, c), ('-', '-')], rest2)
        else if d.toNat < c.toNat then none
        else (re_parse_set false fuel rest2).map fun r => ((c, d) :: r.1, r.2)
      | _ => (re_parse_set false fuel rest).map fun r => ((c, c) :: r.1, r.2)

/-- The repetition sign at the head of the pattern, if any, and the rest. -/
def re_parse_rep : List Char → re_rep × List Char
  | '*' :: rest => (.star, rest)
  | '+' :: rest => (.plus, rest)
  | '?' :: rest => (.opt, rest)
  | rest => (.one, rest)

/-- The items of a pattern body. Grouping, alternation, bounds, escapes,
inner anchors and a repetition sign after another are outside the modelled
fragment and give `none`. -/
def re_parse_items : Nat → List Char → Option (List re_item)
  | _, [] => some []
  | 0, _ :: _ => none
  | fuel + 1, c :: rest =>
    if c = '.' then
      let q := re_parse_rep rest
      (re_parse_items fuel q.2).map fun r => ⟨.any, q.1⟩ :: r
    else if c = '[' then
      let body := match rest with
        | '^' :: rest2 => (true, rest2)
        | _ => (false, rest)
      match re_parse_set true body.2.length body.2 with
      | none => none
      | some (ranges, rest3) =>
        let q := re_parse_rep rest3
        (re_parse_items fuel q.2).map fun r => ⟨.set body.1 ranges, q.1⟩ :: r
    else if c = '(' ∨ c = ')' ∨ c = '|' ∨ c = '{' ∨ c = '}' ∨ c = '\\' ∨ c = '^' ∨ c = '$'
        ∨ c = '*' ∨ c = '+' ∨ c = '?' then none
    else
      let q := re_parse_rep rest
      (re_parse_items fuel q.2).map fun r => ⟨.chr c, q.1⟩ :: r

/-- The C library `regcomp` with `REG_EXTENDED | REG_NOSUB`, as
`check_regexp` calls it, for the fragment of patterns made of literal
characters, `.` (any character), bracket expressions of characters and
ranges, the signs `*`, `+`, `?`, a leading `^` and a trailing `$`. The
patterns written in `ows_request.c` are in the fragment. A pattern outside
it gives `none`, also where the library compiles it: the model then
reports no match, and the theorems on SRID lists take the match of an
entry as a hypothesis, whatever the pattern. -/
def regcomp (pat : List Char) : Option regex_t :=
  let bol := pat.head? == some '^'
  let p1 := if bol then pat.tail else pat
  let eol := p1.getLast? == some '$'
  let p2 := if eol then p1.dropLast else p1
  (re_parse_items p2.length p2).map fun items => ⟨bol, items, eol⟩

/-- Zero or more characters accepted by `acc`, then the continuation `k`. -/
def re_star (acc : Char → Bool) (k : List Char → Bool) : List Char → Bool
  | [] => k []
  | c :: t => k (c :: t) || (acc c && re_star acc k t)

/-- Do the items match a beginning of the text (all of it when `eol`). -/
def re_match_items (eol : Bool) : List re_item → List Char → Bool
  | [], s => !eol || s.isEmpty
  | it :: rest, s =>
    match it.rep with
    | .one =>
      match s with
      | [] => false
      | c :: t => it.atom.accepts c && re_match_items eol rest t
    | .star => re_star it.atom.accepts (re_match_items eol rest) s
    | .plus =>
      match s with
      | [] => false
      | c :: t => it.atom.accepts c && re_star it.atom.accepts (re_match_items eol rest) t
    | .opt =>
      re_match_items eol rest s ||
        match s with
        | [] => false
        | c :: t => it.atom.accepts c && re_match_items eol rest t

/-- Do the items match at some position of the text. -/
def re_search (eol : Bool) (items : List re_item) : List Char → Bool
  | [] => re_match_items eol items []
  | c :: t => re_match_items eol items (c :: t) || re_search eol items t

/-- The C library `regexec`: the compiled pattern matches somewhere in the
text (at its start when anchored). -/
def regexec (re : regex_t) (s : List Char) : Bool :=
  if re.bol then re_match_items re.eol re.items s else re_search re.eol re.items s

/-- Modelled from the spec: `check_regexp` (struct/regexp.c) interprets its
second argument as a pattern and tells whether the text matches it; a
pattern that does not compile matches nothing. -/
def check_regexp (str_request : buffer) (str_regex : buffer) : Bool :=
  match regcomp str_regex with
  | some re => regexec re str_request
  | none => false

/-! ## Versions -/

/-- The three `int` fields of an `ows_version`. -/
structure ows_version where
  major : Int
  minor : Int
  release : Int
  deriving DecidableEq, Repr

/-- Modelled from the spec: `ows_version_init` (ows/ows_version.c, not in
`ows_request.c`) creates the version of a request at the unspecified
sentinel (0,0,0). -/
def ows_version_init : ows_version := ⟨0, 0, 0⟩

/-- Modelled from the spec: `ows_version_get` (ows/ows_version.c) is the
ordinal major*100 + minor*10 + patch. -/
def ows_version_get (v : ows_version) : Int :=
  v.major * 100 + v.minor * 10 + v.release

/-- The number a string of decimal digits denotes. -/
def decimal_value (s : List Char) : Nat :=
  s.foldl (fun n c => 10 * n + (c.toNat - 48)) 0

/-- The C library `atoi` on a text that starts with digits,
`(int) strtol(s, NULL, 10)`: the decimal value of the leading digits, held
at `LONG_MAX` by `strtol`, then converted to the 32-bit `int`. -/
def atoi (s : buffer) : Int :=
  let n : Nat := min (decimal_value (s.takeWhile Char.isDigit)) (2 ^ 63 - 1)
  let w : Nat := n % 2 ^ 32
  if w < 2 ^ 31 then (w : Int) else (w : Int) - 2 ^ 32

/-- A non-empty text of decimal digits, the words of the specification for
a version segment. -/
def all_digits (s : List Char) : Bool :=
  !s.isEmpty && s.all Char.isDigit

/-! ## Errors, requests, layers, server -/

/-- The codes of `enum ows_error_code` that `ows_request.c` raises. -/
inductive ows_error_code where
  | OWS_ERROR_MISSING_PARAMETER_VALUE
  | OWS_ERROR_INVALID_PARAMETER_VALUE
  | OWS_ERROR_CONFIG_FILE
  deriving DecidableEq, Repr

/-- The arguments of a call `ows_error(o, code, message, locator)`. -/
structure ows_err where
  code : ows_error_code
  message : String
  locator : String
  deriving DecidableEq, Repr

/-- Equality of two results is decidable. -/
instance {ε α : Type} [DecidableEq ε] [DecidableEq α] : DecidableEq (Except ε α)
  | .ok a, .ok b => if h : a = b then isTrue (by rw [h]) else isFalse (fun h2 => h (by cases h2; rfl))
  | .error a, .error b =>
    if h : a = b then isTrue (by rw [h]) else isFalse (fun h2 => h (by cases h2; rfl))
  | .ok _, .error _ => isFalse (fun h => by cases h)
  | .error _, .ok _ => isFalse (fun h => by cases h)

/-- Values of `enum ows_service`. -/
inductive ows_service where
  | WMS | WFS | OWS_SERVICE_UNKNOWN
  deriving DecidableEq, Repr

/-- Values of `enum ows_method`. -/
inductive ows_method where
  | OWS_METHOD_UNKNOWN | OWS_METHOD_KVP | OWS_METHOD_XML
  deriving DecidableEq, Repr

/-- The fields of `ows_request` that `ows_request_check` reads and writes. -/
structure ows_request where
  version : Option ows_version
  service : ows_service
  method : ows_method
  deriving DecidableEq, Repr

/-- The record made by `ows_request_init` (lines 39-52). -/
def ows_request_init : ows_request :=
  { version := none, service := .OWS_SERVICE_UNKNOWN, method := .OWS_METHOD_UNKNOWN }

/-- The fields of an `ows_layer` read by the layer scan; `pfx` is the C
field `prefix`. -/
structure ows_layer where
  name : Option buffer
  title : Option buffer
  pfx : Option buffer
  server : Option buffer
  srid : Option (List buffer)
  deriving DecidableEq, Repr

/-- The fields of the server record `ows` read by `ows_request_check`:
`o->metadata->type`, `o->layers`, `o->check_schema`, `o->schema_dir`. -/
structure ows where
  metadata_type : buffer
  layers : List ows_layer
  check_schema : Bool
  schema_dir : buffer

/-- What `ows_request.c` takes from outside itself: the CGI environment
(`cgi_method_get`, `cgi_method_post`, and the text of `CONTENT_TYPE`, which
the CGI server sets for a request with a body), the table lookup
`ows_layer_match_table(o, name)`, the schema generator
`wfs_generate_schema(o)`, the schema file names of `ows_define.h`, and
libxml2 (does the schema given as a file or in memory parse, does the
document parse, and the result of `xmlSchemaValidateDoc`). -/
structure ows_env where
  cgi_method_get : Bool
  cgi_method_post : Bool
  content_type : buffer
  ows_layer_match_table : buffer → Bool
  wfs_generate_schema : buffer
  WFS_SCHEMA_100_BASIC : buffer
  WFS_SCHEMA_110 : buffer
  xmlSchemaParse : Bool → buffer → Bool
  xmlParseMemory : buffer → Bool
  xmlSchemaValidateDoc : Bool → buffer → buffer → Int

/-! ## `ows_schema_validation` (lines 136-189) -/

/-- The function `ows_schema_validation`: `ret` starts at -1; a schema that
does not parse returns it at once; the document is validated only when it
parses, else `ret` is returned as it is. -/
def ows_schema_validation (env : ows_env) (xml_schema : buffer) (xml : buffer)
    (schema_is_file : Bool) : Int :=
  let ret : Int := -1
  if env.xmlSchemaParse schema_is_file xml_schema = false then ret
  else if env.xmlParseMemory xml then env.xmlSchemaValidateDoc schema_is_file xml_schema xml
  else ret

/-! ## `ows_request_check_version` (lines 195-248) -/

/-- The error of every rejected version text. -/
def version_error : ows_err :=
  ⟨.OWS_ERROR_INVALID_PARAMETER_VALUE, "VERSION parameter is not valid (use x.y.z)", "version"⟩

/-- The function `ows_request_check_version`; `b` is
`array_get(cgi, "version")`, and the version it returns is the one it
wrote into the request. -/
def ows_request_check_version (b : buffer) : Except ows_err ows_version :=
  if buffer_cmp b "" then .ok ⟨0, 0, 0⟩
  else if b.length < 5 then .error version_error
  else
    match list_explode '.' b with
    | [s1, s2, s3] =>
      if check_regexp s1 "^[0-9]+$".toList && check_regexp s2 "^[0-9]+$".toList
          && check_regexp s3 "^[0-9]+$".toList then
        .ok ⟨atoi s1, atoi s2, atoi s3⟩
      else .error version_error
    | _ => .error version_error

/-! ## `ows_request_check` (lines 255-432) -/

/-- Lines 283-289 and 302-308: the service named by the server metadata. -/
def service_default (o : ows) : Except ows_err ows_service :=
  if buffer_case_cmp o.metadata_type "WMS" then .ok .WMS
  else if buffer_case_cmp o.metadata_type "WFS" then .ok .WFS
  else .error ⟨.OWS_ERROR_INVALID_PARAMETER_VALUE, "service unknown", "service"⟩

/-- Lines 275-312: the value given to `or->service`. The test
`array_is_key(cgi, "service")` is `array_get(cgi, "service") != NULL`. -/
def check_service (env : ows_env) (o : ows) (cgi : array) : Except ows_err ows_service :=
  match array_get cgi "service" with
  | none =>
    if env.cgi_method_get then
      .error ⟨.OWS_ERROR_MISSING_PARAMETER_VALUE, "SERVICE is not set", "SERVICE"⟩
    else service_default o
  | some b =>
    if buffer_case_cmp b "WMS" then .ok .WMS
    else if buffer_case_cmp b "WFS" then .ok .WFS
    else if buffer_case_cmp b "WCS" then
      .error ⟨.OWS_ERROR_INVALID_PARAMETER_VALUE, "service not implemented", "service"⟩
    else if buffer_case_cmp b "" then service_default o
    else .error ⟨.OWS_ERROR_INVALID_PARAMETER_VALUE, "service unknown", "service"⟩

/-- Lines 315-320: the value given to the local `b`. -/
def check_request (cgi : array) : Except ows_err buffer :=
  match array_get cgi "request" with
  | none => .error ⟨.OWS_ERROR_MISSING_PARAMETER_VALUE, "REQUEST is not set", "REQUEST"⟩
  | some b => .ok b

/-- Lines 326-339: no version text was given. -/
def version_default (method : ows_method) (service : ows_service) (b : buffer) :
    Except ows_err ows_version :=
  if !buffer_case_cmp b "GetCapabilities" then
    if method = .OWS_METHOD_KVP then
      .error ⟨.OWS_ERROR_MISSING_PARAMETER_VALUE, "VERSION is not set", "VERSION"⟩
    else if method = .OWS_METHOD_XML then
      if service = .WFS then .ok ⟨1, 1, 0⟩
      else if service = .WMS then .ok ⟨1, 3, 0⟩
      else .ok ows_version_init
    else .ok ows_version_init
  else .ok ows_version_init

/-- Lines 322-340: the value of `or->version`, from `ows_version_init()`
on. -/
def check_version (method : ows_method) (service : ows_service) (cgi : array) (b : buffer) :
    Except ows_err ows_version :=
  match array_get cgi "version" with
  | none => version_default method service b
  | some t =>
    if buffer_cmp t "" then version_default method service b
    else ows_request_check_version t

/-- Lines 377-381: the loop over the SRID list of a layer, on the flag
`srsname`. -/
def srid_scan (b : buffer) : List buffer → Bool → Bool
  | [], srsname => srsname
  | srid :: rest, srsname => srid_scan b rest (if check_regexp b srid then true else srsname)

/-- Lines 363-389: the SRS check of a table-backed layer called `name` with
the SRID list `srid`, on the locals `b` and `srsname`. -/
def check_srs (cgi : array) (st : buffer × Bool) (name : buffer)
    (srid : Option (List buffer)) : Except ows_err (buffer × Bool) :=
  match srid with
  | none => .ok st
  | some srids =>
    match array_get cgi "srsname", array_get cgi "typename" with
    | some b, some typename =>
      if typename = name then
        if !check_regexp b "^http://www.opengis.net".toList
            && !check_regexp b "^EPSG".toList && !check_regexp b "^urn:".toList then
          .error ⟨.OWS_ERROR_CONFIG_FILE, "srsname isn't valid", "srsName"⟩
        else if srid_scan b srids st.2 = false then
          .error ⟨.OWS_ERROR_CONFIG_FILE, "srsname doesn't match srid", "config_file"⟩
        else .ok (b, srid_scan b srids st.2)
      else .ok (b, st.2)
    | _, _ => .ok st

/-- Lines 344-390: the body of the loop over the layers, on the locals `b`
and `srsname`. -/
def check_layer (env : ows_env) (service : ows_service) (cgi : array)
    (st : buffer × Bool) (layer : ows_layer) : Except ows_err (buffer × Bool) :=
  match layer.name with
  | none => .error ⟨.OWS_ERROR_CONFIG_FILE, "No layer name defined", "config_file"⟩
  | some name =>
    if env.ows_layer_match_table name then
      if layer.title = none then
        .error ⟨.OWS_ERROR_CONFIG_FILE, "No layer title defined", "config_file"⟩
      else if service = .WFS ∧ layer.pfx = none then
        .error ⟨.OWS_ERROR_CONFIG_FILE, "No layer prefix defined", "config_file"⟩
      else if service = .WFS ∧ layer.server = none then
        .error ⟨.OWS_ERROR_CONFIG_FILE, "No layer server defined", "config_file"⟩
      else check_srs cgi st name layer.srid
    else .ok st

/-- Lines 343-391: the loop over `o->layers`. -/
def check_layers (env : ows_env) (service : ows_service) (cgi : array) :
    List ows_layer → buffer × Bool → Except ows_err (buffer × Bool)
  | [], st => .ok st
  | layer :: rest, st =>
    match check_layer env service cgi st layer with
    | .error e => .error e
    | .ok st1 => check_layers env service cgi rest st1

/-- Lines 394-395: the request has an XML body. -/
def xml_bodied (env : ows_env) (query : buffer) : Bool :=
  (env.cgi_method_post && !buffer_cmp env.content_type "application/x-www-form-urlencoded")
    || (!env.cgi_method_post && !env.cgi_method_get && query.head? == some '<')

/-- Lines 402-422: the schema and the flag `schema_is_file` handed to
`ows_schema_validation`. -/
def schema_select (env : ows_env) (o : ows) (version : ows_version) (b : buffer) :
    buffer × Bool :=
  if ows_version_get version = 100 then
    if buffer_cmp b "Transaction" then (env.wfs_generate_schema, false)
    else (o.schema_dir ++ env.WFS_SCHEMA_100_BASIC, true)
  else
    if buffer_cmp b "Transaction" then (env.wfs_generate_schema, false)
    else (o.schema_dir ++ env.WFS_SCHEMA_110, true)

/-- Lines 393-431: the validation of an XML body. -/
def check_xml (env : ows_env) (o : ows) (service : ows_service) (version : ows_version)
    (b : buffer) (query : buffer) : Except ows_err Unit :=
  if xml_bodied env query then
    if service = .WFS ∧ o.check_schema = true then
      let sel := schema_select env o version b
      let valid := ows_schema_validation env sel.1 query sel.2
      if valid ≠ 0 then
        .error ⟨.OWS_ERROR_INVALID_PARAMETER_VALUE, "xml isn't valid", "request"⟩
      else .ok ()
    else .ok ()
  else .ok ()

/-- Lines 275-340: service, request name and version, in this order. -/
def negotiate (env : ows_env) (o : ows) (method : ows_method) (cgi : array) :
    Except ows_err (ows_service × buffer × ows_version) :=
  match check_service env o cgi with
  | .error e => .error e
  | .ok service =>
    match check_request cgi with
    | .error e => .error e
    | .ok b =>
      match check_version method service cgi b with
      | .error e => .error e
      | .ok version => .ok (service, b, version)

/-- Lines 275-391: negotiation, then the layer scan started with `b` the
request name and `srsname` false; gives the service, the version and the
final value of the local `b`. -/
def before_schema (env : ows_env) (o : ows) (method : ows_method) (cgi : array) :
    Except ows_err (ows_service × ows_version × buffer) :=
  match negotiate env o method cgi with
  | .error e => .error e
  | .ok (service, b, version) =>
    match check_layers env service cgi o.layers (b, false) with
    | .error e => .error e
    | .ok st => .ok (service, version, st.1)

/-- The function `ows_request_check`: the request record it leaves, or the
first `ows_error` it calls. `req` is the C parameter `or`, which is
`o->request`. -/
def ows_request_check (env : ows_env) (o : ows) (req : ows_request) (cgi : array)
    (query : buffer) : Except ows_err ows_request :=
  match before_schema env o req.method cgi with
  | .error e => .error e
  | .ok (service, version, b) =>
    match check_xml env o service version b query with
    | .error e => .error e
    | .ok _ => .ok { req with service := service, version := some version }

/-! ## The words of the specification on layers -/

/-- A layer is table-backed when it has a name that the table lookup
knows. -/
def table_backed (env : ows_env) (layer : ows_layer) : Bool :=
  match layer.name with
  | some name => env.ows_layer_match_table name
  | none => false

/-- The metadata defect of a layer, by the precedence name, title, prefix,
server: a missing name; for a table-backed layer a missing title; and under
WFS a missing prefix, then a missing server. -/
def layer_defect (env : ows_env) (service : ows_service) (layer : ows_layer) :
    Option ows_err :=
  if layer.name = none then
    some ⟨.OWS_ERROR_CONFIG_FILE, "No layer name defined", "config_file"⟩
  else if table_backed env layer = true then
    if layer.title = none then
      some ⟨.OWS_ERROR_CONFIG_FILE, "No layer title defined", "config_file"⟩
    else if service = .WFS ∧ layer.pfx = none then
      some ⟨.OWS_ERROR_CONFIG_FILE, "No layer prefix defined", "config_file"⟩
    else if service = .WFS ∧ layer.server = none then
      some ⟨.OWS_ERROR_CONFIG_FILE, "No layer server defined", "config_file"⟩
    else none
  else none

/-- The request has an XML body, in the words of the specification: a POST
whose content type is not application/x-www-form-urlencoded, or neither
POST nor GET with a query that starts with `<`. -/
def is_xml_bodied (env : ows_env) (query : buffer) : Prop :=
  (env.cgi_method_post = true ∧
      env.content_type ≠ "application/x-www-form-urlencoded".toList) ∨
    (env.cgi_method_post = false ∧ env.cgi_method_get = false ∧ query.head? = some '<')

/-! ## Concrete servers and requests used as examples -/

/-- A request posted with an XML body; every layer name is table-backed and
the XML library accepts every schema and document. -/
def ex_env_xml : ows_env :=
  { cgi_method_get := false
    cgi_method_post := true
    content_type := "text/xml".toList
    ows_layer_match_table := fun _ => true
    wfs_generate_schema := "<xs:schema/>".toList
    WFS_SCHEMA_100_BASIC := "wfs/1.0.0/WFS-basic.xsd".toList
    WFS_SCHEMA_110 := "wfs/1.1.0/wfs.xsd".toList
    xmlSchemaParse := fun _ _ => true
    xmlParseMemory := fun _ => true
    xmlSchemaValidateDoc := fun _ _ _ => 0 }

/-- The same environment for a form posted as key/value pairs. -/
def ex_env_form : ows_env :=
  { ex_env_xml with content_type := "application/x-www-form-urlencoded".toList }

/-- The environment of `ex_env_xml` where no layer name is table-backed. -/
def ex_env_no_table : ows_env :=
  { ex_env_xml with ows_layer_match_table := fun _ => false }

/-- The environment of `ex_env_xml` with a validator that reports an invalid
document. -/
def ex_env_invalid : ows_env :=
  { ex_env_xml with xmlSchemaValidateDoc := fun _ _ _ => 1 }

/-- A complete layer `roads` declaring the SRID pattern `4326`. -/
def ex_layer_roads : ows_layer :=
  { name := some "roads".toList
    title := some "Roads".toList
    pfx := some "tows".toList
    server := some "http://www.tinyows.org/".toList
    srid := some ["4326".toList] }

/-- A WFS server with the single layer `roads` and schema checking on. -/
def ex_ows : ows :=
  { metadata_type := "WFS".toList
    layers := [ex_layer_roads]
    check_schema := true
    schema_dir := "/usr/share/tinyows/schema/".toList }

/-- A request record as the transport leaves it for an XML body. -/
def ex_req_xml : ows_request :=
  { ows_request_init with method := .OWS_METHOD_XML }

/-- A request record as the transport leaves it for key/value pairs. -/
def ex_req_kvp : ows_request :=
  { ows_request_init with method := .OWS_METHOD_KVP }

/-- A Transaction on another feature type that also names an SRS. -/
def ex_cgi_transaction : array :=
  [("service".toList, "WFS".toList), ("request".toList, "Transaction".toList),
   ("version".toList, "1.1.0".toList), ("typename".toList, "rivers".toList),
   ("srsname".toList, "EPSG:4326".toList)]

/-- The Transaction of `ex_cgi_transaction` under version 1.0.0. -/
def ex_cgi_transaction_100 : array :=
  [("service".toList, "WFS".toList), ("request".toList, "Transaction".toList),
   ("version".toList, "1.0.0".toList), ("typename".toList, "rivers".toList),
   ("srsname".toList, "EPSG:4326".toList)]

/-- A capabilities request in key/value pairs that names no service. -/
def ex_cgi_capabilities : array :=
  [("request".toList, "GetCapabilities".toList)]

/-- A GetFeature request that names neither service nor version. -/
def ex_cgi_getfeature : array :=
  [("request".toList, "GetFeature".toList)]

/-- A request whose service parameter is present and empty. -/
def ex_cgi_empty_service : array :=
  [("service".toList, []), ("request".toList, "GetFeature".toList)]

/-- A request for `roads` whose SRS name has none of the accepted forms. -/
def ex_cgi_bad_srs : array :=
  [("service".toList, "WFS".toList), ("request".toList, "GetFeature".toList),
   ("version".toList, "1.1.0".toList), ("typename".toList, "roads".toList),
   ("srsname".toList, "NotAPrefix:1".toList)]

/-- A request for `roads` whose SRS name has other characters where the
pattern `^http://www.opengis.net` has its dots. -/
def ex_cgi_wild_srs : array :=
  [("service".toList, "WFS".toList), ("request".toList, "GetFeature".toList),
   ("version".toList, "1.1.0".toList), ("typename".toList, "roads".toList),
   ("srsname".toList, "http://www-opengis-net/def/crs/EPSG/0/4326".toList)]

/-- A request for `roads` in EPSG:4326. -/
def ex_cgi_epsg : array :=
  [("service".toList, "WFS".toList), ("request".toList, "GetFeature".toList),
   ("version".toList, "1.1.0".toList), ("typename".toList, "roads".toList),
   ("srsname".toList, "EPSG:4326".toList)]

/-- A WFS server whose layer `roads` declares the SRID pattern
`^EPSG:4326$`. -/
def ex_ows_epsg : ows :=
  { ex_ows with layers := [{ ex_layer_roads with srid := some ["^EPSG:4326$".toList] }] }

/-- A WFS server with the layer `roads` and a layer `lakes` without title. -/
def ex_ows_untitled : ows :=
  { ex_ows with
    layers := [ex_layer_roads, { ex_layer_roads with name := some "lakes".toList, title := none }] }

/-- A GetFeature on another feature type whose SRS name is the text
"Transaction". -/
def ex_cgi_getfeature_odd : array :=
  [("service".toList, "WFS".toList), ("request".toList, "GetFeature".toList),
   ("version".toList, "1.1.0".toList), ("typename".toList, "rivers".toList),
   ("srsname".toList, "Transaction".toList)]

/-- The GetFeature of `ex_cgi_getfeature_odd` under version 1.0.0. -/
def ex_cgi_getfeature_odd_100 : array :=
  [("service".toList, "WFS".toList), ("request".toList, "GetFeature".toList),
   ("version".toList, "1.0.0".toList), ("typename".toList, "rivers".toList),
   ("srsname".toList, "Transaction".toList)]

/-- The environment of `ex_env_xml` where no document parses. -/
def ex_env_bad_doc : ows_env :=
  { ex_env_xml with xmlParseMemory := fun _ => false }

/-- A request without the `request` parameter. -/
def ex_cgi_no_request : array :=
  [("service".toList, "WFS".toList), ("version".toList, "1.1.0".toList)]

/-- A request whose version text is malformed. -/
def ex_cgi_bad_version : array :=
  [("service".toList, "WFS".toList), ("request".toList, "GetFeature".toList),
   ("version".toList, "1.0".toList)]

/-! ## Variants of the code that claims compare it with -/

/-- The version parser `ows_request_check_version` with the test
`b->use < 5` of lines 220-222 taken out, and nothing else changed. -/
def ows_request_check_version_nolen (b : buffer) : Except ows_err ows_version :=
  if buffer_cmp b "" then .ok ⟨0, 0, 0⟩
  else
    match list_explode '.' b with
    | [s1, s2, s3] =>
      if check_regexp s1 "^[0-9]+$".toList && check_regexp s2 "^[0-9]+$".toList
          && check_regexp s3 "^[0-9]+$".toList then
        .ok ⟨atoi s1, atoi s2, atoi s3⟩
      else .error version_error
    | _ => .error version_error

/-- The layer scan of lines 343-391 with the flag `srsname` set back to
false at the start of each layer. -/
def check_layers_reset (env : ows_env) (service : ows_service) (cgi : array) :
    List ows_layer → buffer × Bool → Except ows_err (buffer × Bool)
  | [], st => .ok st
  | layer :: rest, st =>
    match check_layer env service cgi (st.1, false) layer with
    | .error e => .error e
    | .ok st1 => check_layers_reset env service cgi rest st1

/-- The function `ows_request_check` with the layer scan
`check_layers_reset` in the place of `check_layers`. -/
def ows_request_check_reset (env : ows_env) (o : ows) (req : ows_request) (cgi : array)
    (query : buffer) : Except ows_err ows_request :=
  match negotiate env o req.method cgi with
  | .error e => .error e
  | .ok (service, b, version) =>
    match check_layers_reset env service cgi o.layers (b, false) with
    | .error e => .error e
    | .ok st =>
      match check_xml env o service version st.1 query with
      | .error e => .error e
      | .ok _ => .ok { req with service := service, version := some version }

/-- The result of a scan with the flag put to `f`. -/
def set_flag (f : Bool) : Except ows_err (buffer × Bool) → Except ows_err (buffer × Bool)
  | .error e => .error e
  | .ok st => .ok (st.1, f)

/-- The result of a scan without the flag: the error, or the local `b`. -/
def scan_outcome : Except ows_err (buffer × Bool) → Except ows_err buffer
  | .error e => .error e
  | .ok st => .ok st.1

/-- The layer is the one the request names: it has a name and `typename`
is that name. -/
def is_typename (cgi : array) (layer : ows_layer) : Prop :=
  layer.name ≠ none ∧ array_get cgi "typename" = layer.name

/-- A catalog with two layers called `roads`; the first declares the SRID
27582, the second the SRID 4326. -/
def ex_ows_two_roads : ows :=
  { ex_ows with
    layers := [{ ex_layer_roads with srid := some ["27582".toList] }, ex_layer_roads] }

/-- A text made of the digit 0 only. -/
def all_zeros (s : List Char) : Bool :=
  s.all fun c => c == '0'

/-- A catalog with the complete layers `roads` (SRID 4326) and `lakes`
(SRID 27582). -/
def ex_ows_roads_lakes : ows :=
  { ex_ows with
    layers := [ex_layer_roads,
      { ex_layer_roads with name := some "lakes".toList, srid := some ["27582".toList] }] }

/-- The error of line 384. -/
def srs_nomatch_error : ows_err :=
  ⟨.OWS_ERROR_CONFIG_FILE, "srsname doesn't match srid", "config_file"⟩

/-! ## General lemmas -/

theorem buffer_cmp_empty (b : buffer) : buffer_cmp b "" = true ↔ b = [] := by
  simp [buffer_cmp]

theorem array_is_key_eq_isSome (a : array) (key : String) :
    array_is_key a key = (array_get a key).isSome := by
  induction a with
  | nil => rfl
  | cons kv rest ih =>
    unfold array_is_key at ih ⊢
    simp only [List.any_cons, array_get]
    by_cases h : buffer_case_cmp kv.1 key = true
    · simp [h]
    · simp [h, ih]

theorem array_get_none_of_not_key {a : array} {key : String}
    (h : array_is_key a key = false) : array_get a key = none := by
  rw [array_is_key_eq_isSome] at h
  cases hg : array_get a key with
  | none => rfl
  | some v => simp [hg] at h

theorem case_cmp_WMS_WFS (b : buffer) (h1 : buffer_case_cmp b "WMS" = true)
    (h2 : buffer_case_cmp b "WFS" = true) : False := by
  simp only [buffer_case_cmp, beq_iff_eq] at h1 h2
  rw [h1] at h2
  revert h2
  decide

theorem case_cmp_WMS_WCS (b : buffer) (h1 : buffer_case_cmp b "WMS" = true)
    (h2 : buffer_case_cmp b "WCS" = true) : False := by
  simp only [buffer_case_cmp, beq_iff_eq] at h1 h2
  rw [h1] at h2
  revert h2
  decide

theorem case_cmp_WFS_WCS (b : buffer) (h1 : buffer_case_cmp b "WFS" = true)
    (h2 : buffer_case_cmp b "WCS" = true) : False := by
  simp only [buffer_case_cmp, beq_iff_eq] at h1 h2
  rw [h1] at h2
  revert h2
  decide

theorem case_cmp_nil (s : String) (h : buffer_case_cmp [] s = true) : s.toList = [] := by
  simp only [buffer_case_cmp, beq_iff_eq, List.map_nil] at h
  exact List.map_eq_nil_iff.mp h.symm

/-- An error of service resolution is the result of `ows_request_check`. -/
theorem request_check_of_service_error (env : ows_env) (o : ows) (req : ows_request)
    (cgi : array) (query : buffer) (e : ows_err) (h : check_service env o cgi = .error e) :
    ows_request_check env o req cgi query = .error e := by
  simp [ows_request_check, before_schema, negotiate, h]

/-- What a successful `ows_request_check` leaves is what negotiation found. -/
theorem request_check_ok_fields (env : ows_env) (o : ows) (req : ows_request) (cgi : array)
    (query : buffer) (service : ows_service) (b : buffer) (version : ows_version)
    (r : ows_request) (hneg : negotiate env o req.method cgi = .ok (service, b, version))
    (h : ows_request_check env o req cgi query = .ok r) :
    r.service = service ∧ r.version = some version ∧ r.method = req.method := by
  simp only [ows_request_check, before_schema, hneg] at h
  cases hl : check_layers env service cgi o.layers (b, false) with
  | error e => simp [hl] at h
  | ok st =>
    simp only [hl] at h
    cases hx : check_xml env o service version st.1 query with
    | error e => simp [hx] at h
    | ok u =>
      simp only [hx, Except.ok.injEq] at h
      subst h
      exact ⟨rfl, rfl, rfl⟩

/-! ## The version parser -/

theorem regcomp_digits :
    regcomp "^[0-9]+$".toList = some ⟨true, [⟨.set false [('0', '9')], .plus⟩], true⟩ := by
  decide

theorem accepts_digit (c : Char) :
    (re_atom.set false [('0', '9')]).accepts c = c.isDigit := by
  have h0 : ('0' : Char).toNat = 48 := by decide
  have h9 : ('9' : Char).toNat = 57 := by decide
  have h48 : (UInt32.toBitVec 48).toNat = 48 := by decide
  have h57 : (UInt32.toBitVec 57).toNat = 57 := by decide
  simp only [re_atom.accepts, List.any_cons, List.any_nil, Bool.or_false, h0, h9]
  simp only [Char.isDigit, Char.toNat]
  rw [Bool.eq_iff_iff]
  simp only [decide_eq_true_eq, Bool.and_eq_true, ge_iff_le, UInt32.le_def, BitVec.le_def,
    UInt32.toNat]
  rw [h48, h57]
  simp

theorem re_match_nil_eol : re_match_items true [] = fun s => s.isEmpty := by
  funext s
  simp [re_match_items]

theorem re_star_end (acc : Char → Bool) (s : List Char) :
    re_star acc (fun x => x.isEmpty) s = s.all acc := by
  induction s with
  | nil => simp [re_star]
  | cons c t ih => simp [re_star, ih]

/-- The pattern of a version segment accepts the non-empty texts of digits. -/
theorem check_regexp_digits (s : buffer) :
    check_regexp s "^[0-9]+$".toList = all_digits s := by
  have hacc : (re_atom.set false [('0', '9')]).accepts = Char.isDigit := funext accepts_digit
  simp only [check_regexp, regcomp_digits, regexec, if_true]
  cases s with
  | nil => simp [re_match_items, all_digits]
  | cons c t => simp [re_match_items, re_match_nil_eol, all_digits, re_star_end, hacc]

/-- The segments hold every character but the separators between them. -/
theorem list_explode_length (sep : Char) (b : buffer) :
    ((list_explode sep b).map List.length).sum + (list_explode sep b).length = b.length + 1 := by
  induction b with
  | nil => simp [list_explode]
  | cons c cs ih =>
    unfold list_explode
    by_cases h : c = sep
    · simp only [h, if_true, List.map_cons, List.sum_cons, List.length_cons, List.length_nil]
      omega
    · simp only [h, if_false]
      cases hx : list_explode sep cs with
      | nil => simp [hx] at ih
      | cons seg segs =>
        simp only [hx, List.map_cons, List.sum_cons, List.length_cons] at ih ⊢
        omega

theorem all_digits_length {s : List Char} (h : all_digits s = true) : 1 ≤ s.length := by
  cases s with
  | nil => simp [all_digits] at h
  | cons c t => simp

/-- Three non-empty segments need at least five characters. -/
theorem explode_three_length (b s1 s2 s3 : buffer) (h : list_explode '.' b = [s1, s2, s3])
    (h1 : all_digits s1 = true) (h2 : all_digits s2 = true) (h3 : all_digits s3 = true) :
    5 ≤ b.length := by
  have hl := list_explode_length '.' b
  rw [h] at hl
  have := all_digits_length h1
  have := all_digits_length h2
  have := all_digits_length h3
  simp only [List.map_cons, List.map_nil, List.sum_cons, List.sum_nil, List.length_cons,
    List.length_nil] at hl
  omega

/-- The parser without its length test: on a non-empty text the result is
decided by the split into three segments and the digit test alone. -/
theorem check_version_eq (t : buffer) (ht : t ≠ []) :
    ows_request_check_version t =
      match list_explode '.' t with
      | [s1, s2, s3] =>
        if all_digits s1 && all_digits s2 && all_digits s3 then
          .ok ⟨atoi s1, atoi s2, atoi s3⟩
        else .error version_error
      | _ => .error version_error := by
  have he : buffer_cmp t "" = false := by
    cases h : buffer_cmp t "" with
    | false => rfl
    | true => exact (ht ((buffer_cmp_empty t).mp h)).elim
  unfold ows_request_check_version
  simp only [he, Bool.false_eq_true, if_false, check_regexp_digits]
  by_cases hlen : t.length < 5
  · simp only [hlen, if_true]
    split
    · rename_i s1 s2 s3 hx
      by_cases hd : (all_digits s1 && all_digits s2 && all_digits s3) = true
      · simp only [Bool.and_eq_true] at hd
        have := explode_three_length t s1 s2 s3 hx hd.1.1 hd.1.2 hd.2
        omega
      · simp [hd]
    · rfl
  · simp only [hlen, if_false]

theorem atoi_eq_decimal (s : buffer) (hd : all_digits s = true)
    (hb : decimal_value s < 2 ^ 31) : atoi s = (decimal_value s : Int) := by
  have hall : ∀ c ∈ s, c.isDigit = true := by
    simp only [all_digits, Bool.and_eq_true, List.all_eq_true] at hd
    exact hd.2
  have htw : s.takeWhile Char.isDigit = s := List.takeWhile_eq_self_iff.mpr hall
  unfold atoi
  simp only [htw]
  have h1 : min (decimal_value s) (2 ^ 63 - 1) = decimal_value s := by
    apply Nat.min_eq_left
    omega
  have h2 : decimal_value s % 2 ^ 32 = decimal_value s := Nat.mod_eq_of_lt (by omega)
  simp only [h1, h2, hb, if_true]

theorem decimal_fold_zero (s : List Char) (n : Nat) :
    s.foldl (fun n c => 10 * n + (c.toNat - 48)) n = 0 ↔
      n = 0 ∧ ∀ c ∈ s, c.toNat - 48 = 0 := by
  induction s generalizing n with
  | nil => simp
  | cons c t ih =>
    rw [List.foldl_cons, ih]
    constructor
    · intro ⟨h1, h2⟩
      refine ⟨by omega, fun d hd => ?_⟩
      rcases List.mem_cons.mp hd with h | h
      · rw [h]
        omega
      · exact h2 d h
    · intro ⟨h1, h2⟩
      have := h2 c (List.mem_cons_self c t)
      exact ⟨by omega, fun d hd => h2 d (List.mem_cons_of_mem c hd)⟩

theorem digit_zero_iff (c : Char) (h : c.isDigit = true) : c.toNat - 48 = 0 ↔ c = '0' := by
  have h48 : (UInt32.toBitVec 48).toNat = 48 := by decide
  simp only [Char.isDigit, Bool.and_eq_true, decide_eq_true_eq, ge_iff_le, UInt32.le_def,
    BitVec.le_def] at h
  rw [h48] at h
  have hge : 48 ≤ c.toNat := h.1
  constructor
  · intro hz
    have he : c.toNat = 48 := by omega
    apply Char.ext
    apply UInt32.ext
    exact he
  · intro hz
    rw [hz]
    decide

/-- A text of digits denotes zero exactly when it is made of zeros. -/
theorem decimal_value_zero_iff (s : List Char) (hd : all_digits s = true) :
    decimal_value s = 0 ↔ all_zeros s = true := by
  have hall : ∀ c ∈ s, c.isDigit = true := by
    simp only [all_digits, Bool.and_eq_true, List.all_eq_true] at hd
    exact hd.2
  unfold decimal_value all_zeros
  rw [decimal_fold_zero, List.all_eq_true]
  constructor
  · intro ⟨_, h⟩ c hc
    simpa using (digit_zero_iff c (hall c hc)).mp (h c hc)
  · intro h
    refine ⟨rfl, fun c hc => (digit_zero_iff c (hall c hc)).mpr ?_⟩
    simpa using h c hc

theorem atoi_zero_of_zeros (s : buffer) (hd : all_digits s = true)
    (hz : all_zeros s = true) : atoi s = 0 := by
  have h0 := (decimal_value_zero_iff s hd).mpr hz
  rw [atoi_eq_decimal s hd (by omega), h0]
  rfl

theorem zeros_of_atoi_zero (s : buffer) (hd : all_digits s = true) (h : atoi s = 0) :
    all_zeros s = true ∨ 2 ^ 31 ≤ decimal_value s := by
  by_cases hb : decimal_value s < 2 ^ 31
  · left
    rw [atoi_eq_decimal s hd hb] at h
    exact (decimal_value_zero_iff s hd).mp (by exact_mod_cast h)
  · right
    omega

/-! ## The layer scan -/

/-- A layer with a metadata defect stops the scan with that defect. -/
theorem check_layer_of_defect (env : ows_env) (service : ows_service) (cgi : array)
    (st : buffer × Bool) (l : ows_layer) (e : ows_err)
    (h : layer_defect env service l = some e) : check_layer env service cgi st l = .error e := by
  unfold layer_defect table_backed at h
  unfold check_layer
  cases hn : l.name with
  | none => simpa [hn] using h
  | some name =>
    simp only [hn] at h ⊢
    by_cases ht : env.ows_layer_match_table name = true
    · simp only [ht, if_true] at h ⊢
      split_ifs at h ⊢
      all_goals simp_all
    · simp [ht] at h

/-- A layer without metadata defect has a name, and the scan runs the SRS
check on it when it is table-backed and leaves the locals alone else. -/
theorem check_layer_no_defect (env : ows_env) (service : ows_service) (cgi : array)
    (st : buffer × Bool) (l : ows_layer) (h : layer_defect env service l = none) :
    ∃ name, l.name = some name ∧
      check_layer env service cgi st l =
        if env.ows_layer_match_table name = true then check_srs cgi st name l.srid
        else .ok st := by
  unfold layer_defect table_backed at h
  unfold check_layer
  cases hn : l.name with
  | none => simp [hn] at h
  | some name =>
    refine ⟨name, rfl, ?_⟩
    simp only [hn] at h ⊢
    by_cases ht : env.ows_layer_match_table name = true
    · simp only [ht, if_true] at h ⊢
      split_ifs at h ⊢
      all_goals simp_all
    · simp [ht]

theorem check_srs_code (cgi : array) (st : buffer × Bool) (name : buffer)
    (srid : Option (List buffer)) (e : ows_err) (h : check_srs cgi st name srid = .error e) :
    e.code = .OWS_ERROR_CONFIG_FILE := by
  unfold check_srs at h
  split at h
  · cases h
  · split at h
    · split_ifs at h <;> (cases h; rfl)
    · cases h

/-- Every error of the loop body is a configuration error. -/
theorem check_layer_code (env : ows_env) (service : ows_service) (cgi : array)
    (st : buffer × Bool) (l : ows_layer) (e : ows_err)
    (h : check_layer env service cgi st l = .error e) : e.code = .OWS_ERROR_CONFIG_FILE := by
  cases hd : layer_defect env service l with
  | some e2 =>
    rw [check_layer_of_defect env service cgi st l e2 hd] at h
    cases h
    unfold layer_defect at hd
    split_ifs at hd <;> (cases hd; rfl)
  | none =>
    obtain ⟨name, _, hc⟩ := check_layer_no_defect env service cgi st l hd
    rw [hc] at h
    by_cases ht : env.ows_layer_match_table name = true
    · rw [if_pos ht] at h
      exact check_srs_code cgi st name l.srid e h
    · rw [if_neg ht] at h
      cases h

/-- Every error of the layer scan is a configuration error. -/
theorem check_layers_code (env : ows_env) (service : ows_service) (cgi : array)
    (layers : List ows_layer) (st : buffer × Bool) (e : ows_err)
    (h : check_layers env service cgi layers st = .error e) :
    e.code = .OWS_ERROR_CONFIG_FILE := by
  induction layers generalizing st with
  | nil => simp [check_layers] at h
  | cons l rest ih =>
    unfold check_layers at h
    cases hl : check_layer env service cgi st l with
    | error e2 =>
      simp only [hl, Except.error.injEq] at h
      subst h
      exact check_layer_code env service cgi st l e2 hl
    | ok st1 =>
      simp only [hl] at h
      exact ih st1 h

/-- A catalog with a defective layer fails the scan. -/
theorem check_layers_of_defect (env : ows_env) (service : ows_service) (cgi : array)
    (layers : List ows_layer) (st : buffer × Bool) (l : ows_layer) (hl : l ∈ layers)
    (hd : layer_defect env service l ≠ none) :
    ∃ e, check_layers env service cgi layers st = .error e := by
  induction layers generalizing st with
  | nil => simp at hl
  | cons x rest ih =>
    unfold check_layers
    cases hx : check_layer env service cgi st x with
    | error e2 => exact ⟨e2, rfl⟩
    | ok st1 =>
      simp only
      rcases List.mem_cons.mp hl with heq | hmem
      · subst heq
        cases hd2 : layer_defect env service l with
        | none => exact (hd hd2).elim
        | some e2 =>
          rw [check_layer_of_defect env service cgi st l e2 hd2] at hx
          cases hx
      · exact ih st1 hmem

/-- An error of the layer scan after a successful negotiation is the result
of `ows_request_check`. -/
theorem request_check_of_layers_error (env : ows_env) (o : ows) (req : ows_request)
    (cgi : array) (query : buffer) (service : ows_service) (b : buffer)
    (version : ows_version) (e : ows_err)
    (hneg : negotiate env o req.method cgi = .ok (service, b, version))
    (h : check_layers env service cgi o.layers (b, false) = .error e) :
    ows_request_check env o req cgi query = .error e := by
  simp [ows_request_check, before_schema, hneg, h]

theorem check_srs_no_keys (cgi : array) (st : buffer × Bool) (name : buffer)
    (srid : Option (List buffer))
    (h : array_is_key cgi "srsname" = false ∨ array_is_key cgi "typename" = false) :
    check_srs cgi st name srid = .ok st := by
  unfold check_srs
  cases srid with
  | none => rfl
  | some srids =>
    rcases h with h | h
    · simp [array_get_none_of_not_key h]
    · rw [array_get_none_of_not_key h]
      cases array_get cgi "srsname" <;> rfl

/-- Without `srsname` or without `typename` the scan stops at the first
metadata defect and changes no local. -/
theorem check_layers_no_keys (env : ows_env) (service : ows_service) (cgi : array)
    (layers : List ows_layer) (st : buffer × Bool)
    (h : array_is_key cgi "srsname" = false ∨ array_is_key cgi "typename" = false) :
    check_layers env service cgi layers st =
      match layers.findSome? (layer_defect env service) with
      | some e => .error e
      | none => .ok st := by
  induction layers with
  | nil => simp [check_layers]
  | cons l rest ih =>
    unfold check_layers
    cases hd : layer_defect env service l with
    | some e => simp [check_layer_of_defect env service cgi st l e hd, List.findSome?_cons, hd]
    | none =>
      obtain ⟨name, _, hc⟩ := check_layer_no_defect env service cgi st l hd
      have hok : check_layer env service cgi st l = .ok st := by
        rw [hc]
        by_cases ht : env.ows_layer_match_table name = true
        · rw [if_pos ht, check_srs_no_keys cgi st name l.srid h]
        · rw [if_neg ht]
      simp only [hok, List.findSome?_cons, hd]
      exact ih

theorem layer_defect_none_iff (env : ows_env) (service : ows_service) (l : ows_layer) :
    layer_defect env service l = none ↔
      l.name ≠ none ∧ (table_backed env l = true →
        l.title ≠ none ∧ (service = .WFS → l.pfx ≠ none ∧ l.server ≠ none)) := by
  unfold layer_defect
  split_ifs with h1 h2 h3 h4 h5
  all_goals simp_all

theorem srid_scan_true (b : buffer) (srids : List buffer) : srid_scan b srids true = true := by
  induction srids with
  | nil => rfl
  | cons x xs ih => simp [srid_scan, ih]

theorem srid_scan_of_match (b : buffer) (srids : List buffer) (f : Bool) (p : buffer)
    (hp : p ∈ srids) (hm : check_regexp b p = true) : srid_scan b srids f = true := by
  induction srids generalizing f with
  | nil => simp at hp
  | cons x xs ih =>
    unfold srid_scan
    rcases List.mem_cons.mp hp with heq | hmem
    · subst heq
      simp [hm, srid_scan_true]
    · exact ih _ hmem

/-- The SRS check of a layer whose name is not the `typename` raises nothing
and keeps the flag. -/
theorem check_srs_other_name (cgi : array) (st : buffer × Bool) (name : buffer)
    (srid : Option (List buffer)) (srs tn : buffer)
    (hsrs : array_get cgi "srsname" = some srs) (htn : array_get cgi "typename" = some tn)
    (hne : tn ≠ name) : ∃ b1, check_srs cgi st name srid = .ok (b1, st.2) := by
  unfold check_srs
  cases srid with
  | none => exact ⟨st.1, rfl⟩
  | some srids => exact ⟨srs, by simp [hsrs, htn, hne]⟩

/-- Once the flag is set, the SRS check of any layer passes when the SRS
name has an accepted form. -/
theorem check_srs_flag_true (cgi : array) (b0 : buffer) (name : buffer)
    (srid : Option (List buffer)) (srs tn : buffer)
    (hsrs : array_get cgi "srsname" = some srs) (htn : array_get cgi "typename" = some tn)
    (hlead : (!check_regexp srs "^http://www.opengis.net".toList
      && !check_regexp srs "^EPSG".toList && !check_regexp srs "^urn:".toList) = false) :
    ∃ b1, check_srs cgi (b0, true) name srid = .ok (b1, true) := by
  unfold check_srs
  cases srid with
  | none => exact ⟨b0, rfl⟩
  | some srids =>
    refine ⟨srs, ?_⟩
    simp only [hsrs, htn]
    by_cases hn : tn = name
    · rw [if_pos hn, hlead]
      simp [srid_scan_true]
    · rw [if_neg hn]

theorem check_layers_flag_true (env : ows_env) (service : ows_service) (cgi : array)
    (layers : List ows_layer) (srs tn : buffer)
    (hmeta : ∀ x ∈ layers, layer_defect env service x = none)
    (hsrs : array_get cgi "srsname" = some srs) (htn : array_get cgi "typename" = some tn)
    (hlead : (!check_regexp srs "^http://www.opengis.net".toList
      && !check_regexp srs "^EPSG".toList && !check_regexp srs "^urn:".toList) = false)
    (b0 : buffer) : ∃ b1, check_layers env service cgi layers (b0, true) = .ok (b1, true) := by
  induction layers generalizing b0 with
  | nil => exact ⟨b0, rfl⟩
  | cons x rest ih =>
    obtain ⟨hx, hrest⟩ := List.forall_mem_cons.mp hmeta
    obtain ⟨name, _, hc⟩ := check_layer_no_defect env service cgi (b0, true) x hx
    unfold check_layers
    by_cases ht : env.ows_layer_match_table name = true
    · rw [if_pos ht] at hc
      obtain ⟨b1, hb1⟩ := check_srs_flag_true cgi b0 name x.srid srs tn hsrs htn hlead
      rw [hc, hb1]
      exact ih hrest b1
    · rw [if_neg ht] at hc
      rw [hc]
      exact ih hrest b0

theorem check_layers_not_table (env : ows_env) (service : ows_service) (cgi : array)
    (layers : List ows_layer) (srs tn : buffer)
    (hmeta : ∀ x ∈ layers, layer_defect env service x = none)
    (hsrs : array_get cgi "srsname" = some srs) (htn : array_get cgi "typename" = some tn)
    (htab : env.ows_layer_match_table tn = false) (st : buffer × Bool) :
    ∃ b1, check_layers env service cgi layers st = .ok (b1, st.2) := by
  induction layers generalizing st with
  | nil => exact ⟨st.1, rfl⟩
  | cons x rest ih =>
    obtain ⟨hx, hrest⟩ := List.forall_mem_cons.mp hmeta
    obtain ⟨name, _, hc⟩ := check_layer_no_defect env service cgi st x hx
    unfold check_layers
    by_cases ht : env.ows_layer_match_table name = true
    · rw [if_pos ht] at hc
      have hne : tn ≠ name := by
        intro h
        rw [h, ht] at htab
        cases htab
      obtain ⟨b1, hb1⟩ := check_srs_other_name cgi st name x.srid srs tn hsrs htn hne
      rw [hc, hb1]
      exact ih hrest (b1, st.2)
    · rw [if_neg ht] at hc
      rw [hc]
      exact ih hrest st

theorem regcomp_EPSG :
    regcomp "^EPSG".toList
      = some ⟨true, [⟨.chr 'E', .one⟩, ⟨.chr 'P', .one⟩, ⟨.chr 'S', .one⟩, ⟨.chr 'G', .one⟩],
          false⟩ := by
  decide

theorem regcomp_urn :
    regcomp "^urn:".toList
      = some ⟨true, [⟨.chr 'u', .one⟩, ⟨.chr 'r', .one⟩, ⟨.chr 'n', .one⟩, ⟨.chr ':', .one⟩],
          false⟩ := by
  decide

theorem regcomp_http :
    regcomp "^http://www.opengis.net".toList
      = some ⟨true, [⟨.chr 'h', .one⟩, ⟨.chr 't', .one⟩, ⟨.chr 't', .one⟩, ⟨.chr 'p', .one⟩,
          ⟨.chr ':', .one⟩, ⟨.chr '/', .one⟩, ⟨.chr '/', .one⟩, ⟨.chr 'w', .one⟩,
          ⟨.chr 'w', .one⟩, ⟨.chr 'w', .one⟩, ⟨.any, .one⟩, ⟨.chr 'o', .one⟩, ⟨.chr 'p', .one⟩,
          ⟨.chr 'e', .one⟩, ⟨.chr 'n', .one⟩, ⟨.chr 'g', .one⟩, ⟨.chr 'i', .one⟩,
          ⟨.chr 's', .one⟩, ⟨.any, .one⟩, ⟨.chr 'n', .one⟩, ⟨.chr 'e', .one⟩, ⟨.chr 't', .one⟩],
          false⟩ := by
  decide

/-- A text that begins with one of the three accepted forms passes the test
of lines 371-373. -/
theorem lead_test_of_literal (srs : buffer)
    (h : "http://www.opengis.net".toList <+: srs ∨ "EPSG".toList <+: srs
      ∨ "urn:".toList <+: srs) :
    (!check_regexp srs "^http://www.opengis.net".toList
      && !check_regexp srs "^EPSG".toList && !check_regexp srs "^urn:".toList) = false := by
  rcases h with h | h | h
  · obtain ⟨r, rfl⟩ := h
    have e : check_regexp ("http://www.opengis.net".toList ++ r)
        "^http://www.opengis.net".toList = true := by
      unfold check_regexp
      rw [regcomp_http]
      simp [regexec, re_match_items, re_atom.accepts]
    rw [e]
    rfl
  · obtain ⟨r, rfl⟩ := h
    have e : check_regexp ("EPSG".toList ++ r) "^EPSG".toList = true := by
      unfold check_regexp
      rw [regcomp_EPSG]
      simp [regexec, re_match_items, re_atom.accepts]
    rw [e]
    simp
  · obtain ⟨r, rfl⟩ := h
    have e : check_regexp ("urn:".toList ++ r) "^urn:".toList = true := by
      unfold check_regexp
      rw [regcomp_urn]
      simp [regexec, re_match_items, re_atom.accepts]
    rw [e]
    simp

/-- A layer of another name, or without SRID list, passes and keeps the
flag when its metadata are complete. -/
theorem check_layer_not_target (env : ows_env) (service : ows_service) (cgi : array)
    (st : buffer × Bool) (x : ows_layer) (srs tn : buffer)
    (hx : layer_defect env service x = none)
    (hsrs : array_get cgi "srsname" = some srs) (htn : array_get cgi "typename" = some tn)
    (hnot : x.name ≠ some tn ∨ x.srid = none) :
    ∃ b1, check_layer env service cgi st x = .ok (b1, st.2) := by
  obtain ⟨name, hname, hc⟩ := check_layer_no_defect env service cgi st x hx
  rw [hc]
  by_cases ht : env.ows_layer_match_table name = true
  · rw [if_pos ht]
    rcases hnot with hn | hn
    · have hne : tn ≠ name := by
        intro h
        rw [hname, h] at hn
        exact hn rfl
      exact check_srs_other_name cgi st name x.srid srs tn hsrs htn hne
    · rw [hn]
      exact ⟨st.1, rfl⟩
  · rw [if_neg ht]
    exact ⟨st.1, rfl⟩

/-- The scan fails on the form of the SRS name at the first table-backed
layer called `tn` that declares an SRID list. -/
theorem check_layers_bad_lead (env : ows_env) (service : ows_service) (cgi : array)
    (layers : List ows_layer) (srs tn : buffer) (l : ows_layer) (srids : List buffer)
    (hmeta : ∀ x ∈ layers, layer_defect env service x = none)
    (hl : l ∈ layers) (hname : l.name = some tn)
    (htab : env.ows_layer_match_table tn = true) (hsrid : l.srid = some srids)
    (hsrs : array_get cgi "srsname" = some srs) (htn : array_get cgi "typename" = some tn)
    (h1 : check_regexp srs "^http://www.opengis.net".toList = false)
    (h2 : check_regexp srs "^EPSG".toList = false)
    (h3 : check_regexp srs "^urn:".toList = false) (st : buffer × Bool) :
    check_layers env service cgi layers st
      = .error ⟨.OWS_ERROR_CONFIG_FILE, "srsname isn't valid", "srsName"⟩ := by
  induction layers generalizing st with
  | nil => simp at hl
  | cons x rest ih =>
    obtain ⟨hx, hrest⟩ := List.forall_mem_cons.mp hmeta
    unfold check_layers
    by_cases htarget : x.name = some tn ∧ ∃ s, x.srid = some s
    · obtain ⟨hxn, s, hxs⟩ := htarget
      obtain ⟨name, hname2, hc⟩ := check_layer_no_defect env service cgi st x hx
      have hnn : name = tn := by
        rw [hxn] at hname2
        exact (Option.some.inj hname2).symm
      subst hnn
      rw [hc, if_pos htab, hxs]
      unfold check_srs
      simp only [hsrs, htn, if_true, h1, h2, h3, Bool.not_false, Bool.and_self]
    · have hnot : x.name ≠ some tn ∨ x.srid = none := by
        by_cases hxn : x.name = some tn
        · right
          cases hxs : x.srid with
          | none => rfl
          | some s => exact (htarget ⟨hxn, s, hxs⟩).elim
        · exact Or.inl hxn
      obtain ⟨b1, hb1⟩ := check_layer_not_target env service cgi st x srs tn hx hsrs htn hnot
      rw [hb1]
      have hmem : l ∈ rest := by
        rcases List.mem_cons.mp hl with heq | hmem
        · subst heq
          exact (htarget ⟨hname, srids, hsrid⟩).elim
        · exact hmem
      exact ih hrest hmem (b1, st.2)

/-- The scan passes when the SRS name has an accepted form and matches a
pattern of the first layer called `tn` that declares an SRID list. -/
theorem check_layers_first_match (env : ows_env) (service : ows_service) (cgi : array)
    (layers : List ows_layer) (srs tn : buffer) (l : ows_layer) (srids : List buffer)
    (p : buffer)
    (hmeta : ∀ x ∈ layers, layer_defect env service x = none)
    (hsrs : array_get cgi "srsname" = some srs) (htn : array_get cgi "typename" = some tn)
    (hlead : (!check_regexp srs "^http://www.opengis.net".toList
      && !check_regexp srs "^EPSG".toList && !check_regexp srs "^urn:".toList) = false)
    (hfirst : layers.find? (fun x => decide (x.name = some tn) && x.srid.isSome) = some l)
    (hsrid : l.srid = some srids) (hp : p ∈ srids) (hm : check_regexp srs p = true)
    (b0 : buffer) : ∃ st, check_layers env service cgi layers (b0, false) = .ok st := by
  induction layers generalizing b0 with
  | nil => simp at hfirst
  | cons x rest ih =>
    obtain ⟨hx, hrest⟩ := List.forall_mem_cons.mp hmeta
    by_cases hpx : (decide (x.name = some tn) && x.srid.isSome) = true
    · have hxl : x = l := by
        rw [List.find?_cons, hpx] at hfirst
        exact Option.some.inj hfirst
      subst hxl
      have hxn : x.name = some tn := by
        simp only [Bool.and_eq_true, decide_eq_true_eq] at hpx
        exact hpx.1
      by_cases htab : env.ows_layer_match_table tn = true
      · obtain ⟨name, hname2, hc⟩ := check_layer_no_defect env service cgi (b0, false) x hx
        have hnn : name = tn := by
          rw [hxn] at hname2
          exact (Option.some.inj hname2).symm
        subst hnn
        have hscan : srid_scan srs srids false = true :=
          srid_scan_of_match srs srids false p hp hm
        have hsr : check_srs cgi (b0, false) name (some srids) = .ok (srs, true) := by
          unfold check_srs
          simp only [hsrs, htn, if_true]
          rw [hlead]
          simp [hscan]
        unfold check_layers
        rw [hc, if_pos htab, hsrid, hsr]
        obtain ⟨b1, hb1⟩ :=
          check_layers_flag_true env service cgi rest srs name hrest hsrs htn hlead srs
        exact ⟨(b1, true), hb1⟩
      · have htab2 : env.ows_layer_match_table tn = false := by
          cases h : env.ows_layer_match_table tn with
          | false => rfl
          | true => exact (htab h).elim
        obtain ⟨b1, hb1⟩ :=
          check_layers_not_table env service cgi (x :: rest) srs tn hmeta hsrs htn htab2
            (b0, false)
        exact ⟨_, hb1⟩
    · have hrest2 : rest.find? (fun x => decide (x.name = some tn) && x.srid.isSome) = some l := by
        rw [List.find?_cons] at hfirst
        simp only [hpx] at hfirst
        exact hfirst
      have hnot : x.name ≠ some tn ∨ x.srid = none := by
        by_cases hxn : x.name = some tn
        · right
          cases hxs : x.srid with
          | none => rfl
          | some s => simp [hxn, hxs] at hpx
        · exact Or.inl hxn
      obtain ⟨b1, hb1⟩ :=
        check_layer_not_target env service cgi (b0, false) x srs tn hx hsrs htn hnot
      unfold check_layers
      rw [hb1]
      exact ih hrest hrest2 b1

/-! ## The stages of `ows_request_check` -/

theorem check_service_ok (env : ows_env) (o : ows) (cgi : array) (service : ows_service)
    (hs : check_service env o cgi = .ok service) : service = .WMS ∨ service = .WFS := by
  unfold check_service service_default at hs
  revert hs
  cases array_get cgi "service" <;> simp only <;> split_ifs <;> simp <;>
    intro h <;> simp [← h]

theorem negotiate_ok_inv (env : ows_env) (o : ows) (method : ows_method) (cgi : array)
    (service : ows_service) (b : buffer) (version : ows_version)
    (h : negotiate env o method cgi = .ok (service, b, version)) :
    check_service env o cgi = .ok service ∧ check_request cgi = .ok b ∧
      check_version method service cgi b = .ok version := by
  unfold negotiate at h
  cases hs : check_service env o cgi with
  | error e => simp [hs] at h
  | ok s =>
    simp only [hs] at h
    cases hr : check_request cgi with
    | error e => simp [hr] at h
    | ok b1 =>
      simp only [hr] at h
      cases hv : check_version method s cgi b1 with
      | error e => simp [hv] at h
      | ok v =>
        simp only [hv, Except.ok.injEq, Prod.mk.injEq] at h
        obtain ⟨h1, h2, h3⟩ := h
        subst h1 h2 h3
        exact ⟨rfl, rfl, hv⟩

/-- An error of negotiation is the result of `ows_request_check`. -/
theorem request_check_of_negotiate_error (env : ows_env) (o : ows) (req : ows_request)
    (cgi : array) (query : buffer) (e : ows_err)
    (h : negotiate env o req.method cgi = .error e) :
    ows_request_check env o req cgi query = .error e := by
  simp [ows_request_check, before_schema, h]

/-- A request is admitted only after every stage passed. -/
theorem request_check_ok_inv (env : ows_env) (o : ows) (req : ows_request) (cgi : array)
    (query : buffer) (r : ows_request) (h : ows_request_check env o req cgi query = .ok r) :
    ∃ service b version st,
      negotiate env o req.method cgi = .ok (service, b, version) ∧
      check_layers env service cgi o.layers (b, false) = .ok st ∧
      check_xml env o service version st.1 query = .ok () ∧
      r = { req with service := service, version := some version } := by
  unfold ows_request_check before_schema at h
  cases hn : negotiate env o req.method cgi with
  | error e => simp [hn] at h
  | ok t =>
    obtain ⟨service, b, version⟩ := t
    simp only [hn] at h
    cases hl : check_layers env service cgi o.layers (b, false) with
    | error e => simp [hl] at h
    | ok st =>
      simp only [hl] at h
      cases hx : check_xml env o service version st.1 query with
      | error e => simp [hx] at h
      | ok u =>
        simp only [hx, Except.ok.injEq] at h
        exact ⟨service, b, version, st, rfl, hl, hx, h.symm⟩

/-- The layer scan reads nothing of the environment but the table lookup. -/
theorem check_layers_env (env env2 : ows_env) (service : ows_service) (cgi : array)
    (layers : List ows_layer) (st : buffer × Bool)
    (h : env2.ows_layer_match_table = env.ows_layer_match_table) :
    check_layers env2 service cgi layers st = check_layers env service cgi layers st := by
  induction layers generalizing st with
  | nil => rfl
  | cons x rest ih =>
    have hx : check_layer env2 service cgi st x = check_layer env service cgi st x := by
      unfold check_layer
      rw [h]
    unfold check_layers
    rw [hx]
    cases check_layer env service cgi st x with
    | error e => rfl
    | ok st1 => exact ih st1

/-! ## The flag of the layer scan -/

/-- On a layer that the request does not name, the SRS check does not read
the flag and hands it on. -/
theorem check_srs_flag_indep (cgi : array) (b : buffer) (f f2 : Bool) (name : buffer)
    (srid : Option (List buffer)) (hne : array_get cgi "typename" ≠ some name) :
    check_srs cgi (b, f) name srid = set_flag f (check_srs cgi (b, f2) name srid) := by
  unfold check_srs
  cases srid with
  | none => rfl
  | some srids =>
    cases hs : array_get cgi "srsname" with
    | none => rfl
    | some srs =>
      cases ht : array_get cgi "typename" with
      | none => rfl
      | some tn =>
        have hn : tn ≠ name := by
          intro h
          rw [ht, h] at hne
          exact hne rfl
        simp only [hn, if_false]
        rfl

/-- On a layer that the request does not name, the loop body does not read
the flag and hands it on. -/
theorem check_layer_flag_indep (env : ows_env) (service : ows_service) (cgi : array)
    (b : buffer) (f f2 : Bool) (x : ows_layer) (hx : ¬ is_typename cgi x) :
    check_layer env service cgi (b, f) x
      = set_flag f (check_layer env service cgi (b, f2) x) := by
  unfold check_layer
  cases hn : x.name with
  | none => rfl
  | some name =>
    have hne : array_get cgi "typename" ≠ some name := by
      intro h
      exact hx ⟨by simp [hn], by rw [h, hn]⟩
    simp only
    by_cases ht : env.ows_layer_match_table name = true
    · simp only [ht, if_true]
      split_ifs
      · rfl
      · rfl
      · rfl
      · exact check_srs_flag_indep cgi b f f2 name x.srid hne
    · simp only [ht]
      rfl

/-- The flag is set only by the layer that the request names. -/
theorem check_layer_sets_flag (env : ows_env) (service : ows_service) (cgi : array)
    (b b1 : buffer) (x : ows_layer)
    (h : check_layer env service cgi (b, false) x = .ok (b1, true)) : is_typename cgi x := by
  by_contra hx
  have hk := check_layer_flag_indep env service cgi b false false x hx
  rw [h] at hk
  simp [set_flag] at hk

/-- When no two layers are named by the request, the scan with one flag
for the catalog and the scan with a flag for each layer give the same
error or the same `b`. -/
theorem check_layers_reset_outcome (env : ows_env) (service : ows_service) (cgi : array)
    (layers : List ows_layer) (b : buffer) (f f2 : Bool)
    (hp : layers.Pairwise (fun x y => ¬ (is_typename cgi x ∧ is_typename cgi y)))
    (hf : f = true → ∀ x ∈ layers, ¬ is_typename cgi x) :
    scan_outcome (check_layers env service cgi layers (b, f))
      = scan_outcome (check_layers_reset env service cgi layers (b, f2)) := by
  induction layers generalizing b f f2 with
  | nil => rfl
  | cons x rest ih =>
    obtain ⟨hx, hrest⟩ := List.pairwise_cons.mp hp
    unfold check_layers check_layers_reset
    cases f with
    | false =>
      cases hc : check_layer env service cgi (b, false) x with
      | error e => rfl
      | ok st1 =>
        obtain ⟨b1, f1⟩ := st1
        refine ih b1 f1 f1 hrest (fun hf1 y hy hty => ?_)
        subst hf1
        exact hx y hy ⟨check_layer_sets_flag env service cgi b b1 x hc, hty⟩
    | true =>
      have hnx : ¬ is_typename cgi x := hf rfl x (List.mem_cons_self x rest)
      rw [check_layer_flag_indep env service cgi b true false x hnx]
      cases hc : check_layer env service cgi (b, false) x with
      | error e => rfl
      | ok st1 =>
        exact ih st1.1 true st1.2 hrest
          (fun _ y hy => hf rfl y (List.mem_cons_of_mem x hy))

theorem srid_scan_false (b : buffer) (srids : List buffer) (f : Bool)
    (h : srid_scan b srids f = false) : f = false ∧ ∀ p ∈ srids, check_regexp b p = false := by
  constructor
  · cases f with
    | false => rfl
    | true =>
      rw [srid_scan_true] at h
      cases h
  · intro p hp
    cases hm : check_regexp b p with
    | false => rfl
    | true =>
      rw [srid_scan_of_match b srids f p hp hm] at h
      cases h

/-- The error of line 384 comes from a layer that the request names, with
the flag not set and an SRID list without match. -/
theorem check_srs_nomatch_inv (cgi : array) (st : buffer × Bool) (name : buffer)
    (srid : Option (List buffer)) (h : check_srs cgi st name srid = .error srs_nomatch_error) :
    ∃ srs srids, array_get cgi "srsname" = some srs ∧ array_get cgi "typename" = some name ∧
      srid = some srids ∧ st.2 = false ∧ ∀ p ∈ srids, check_regexp srs p = false := by
  unfold check_srs at h
  cases srid with
  | none => cases h
  | some srids =>
    cases hs : array_get cgi "srsname" with
    | none => simp [hs] at h
    | some srs =>
      cases ht : array_get cgi "typename" with
      | none => simp [hs, ht] at h
      | some tn =>
        simp only [hs, ht] at h
        by_cases hn : tn = name
        · subst hn
          simp only [if_true] at h
          split_ifs at h with h1 h2
          · simp [srs_nomatch_error] at h
          · obtain ⟨hf, hall⟩ := srid_scan_false srs srids st.2 h2
            exact ⟨srs, srids, rfl, rfl, rfl, hf, hall⟩
        · simp [hn] at h

theorem check_layer_nomatch_inv (env : ows_env) (service : ows_service) (cgi : array)
    (st : buffer × Bool) (x : ows_layer)
    (h : check_layer env service cgi st x = .error srs_nomatch_error) :
    ∃ name srs srids, x.name = some name ∧ env.ows_layer_match_table name = true ∧
      array_get cgi "srsname" = some srs ∧ array_get cgi "typename" = some name ∧
      x.srid = some srids ∧ st.2 = false ∧ ∀ p ∈ srids, check_regexp srs p = false := by
  unfold check_layer at h
  cases hn : x.name with
  | none => simp [hn, srs_nomatch_error] at h
  | some name =>
    simp only [hn] at h
    by_cases ht : env.ows_layer_match_table name = true
    · simp only [ht, if_true] at h
      split_ifs at h
      · simp [srs_nomatch_error] at h
      · simp [srs_nomatch_error] at h
      · simp [srs_nomatch_error] at h
      · obtain ⟨srs, srids, h1, h2, h3, h4, h5⟩ := check_srs_nomatch_inv cgi st name x.srid h
        exact ⟨name, srs, srids, rfl, ht, h1, h2, h3, h4, h5⟩
    · simp [ht] at h

theorem check_srs_keeps_flag (cgi : array) (b : buffer) (name : buffer)
    (srid : Option (List buffer)) (st1 : buffer × Bool)
    (h : check_srs cgi (b, true) name srid = .ok st1) : st1.2 = true := by
  unfold check_srs at h
  cases srid with
  | none =>
    simp only [Except.ok.injEq] at h
    rw [← h]
  | some srids =>
    cases hs : array_get cgi "srsname" with
    | none =>
      simp only [hs, Except.ok.injEq] at h
      rw [← h]
    | some srs =>
      cases ht : array_get cgi "typename" with
      | none =>
        simp only [hs, ht, Except.ok.injEq] at h
        rw [← h]
      | some tn =>
        simp only [hs, ht, srid_scan_true] at h
        split_ifs at h
        all_goals
          simp only [Except.ok.injEq] at h
          rw [← h]

/-- A flag that is set stays set. -/
theorem check_layer_keeps_flag (env : ows_env) (service : ows_service) (cgi : array)
    (b : buffer) (x : ows_layer) (st1 : buffer × Bool)
    (h : check_layer env service cgi (b, true) x = .ok st1) : st1.2 = true := by
  unfold check_layer at h
  cases hn : x.name with
  | none => simp [hn] at h
  | some name =>
    simp only [hn] at h
    by_cases ht : env.ows_layer_match_table name = true
    · simp only [ht, if_true] at h
      split_ifs at h
      exact check_srs_keeps_flag cgi b name x.srid st1 h
    · simp only [ht, Bool.false_eq_true, if_false, Except.ok.injEq] at h
      rw [← h]

/-- With the flag set the scan never raises the error of line 384. -/
theorem check_layers_flag_no_nomatch (env : ows_env) (service : ows_service) (cgi : array)
    (layers : List ows_layer) (b : buffer) :
    check_layers env service cgi layers (b, true) ≠ .error srs_nomatch_error := by
  induction layers generalizing b with
  | nil => simp [check_layers]
  | cons x rest ih =>
    unfold check_layers
    cases hc : check_layer env service cgi (b, true) x with
    | error e =>
      intro h
      simp only [Except.error.injEq] at h
      subst h
      obtain ⟨_, _, _, _, _, _, _, _, hf, _⟩ :=
        check_layer_nomatch_inv env service cgi (b, true) x hc
      cases hf
    | ok st1 =>
      have hf := check_layer_keeps_flag env service cgi b x st1 hc
      obtain ⟨b1, f1⟩ := st1
      simp only at hf
      subst hf
      exact ih b1

/-- When the name the request gives is not table-backed, the scan never
raises the error of line 384. -/
theorem check_layers_not_table_no_nomatch (env : ows_env) (service : ows_service)
    (cgi : array) (layers : List ows_layer) (tn : buffer) (st : buffer × Bool)
    (htn : array_get cgi "typename" = some tn)
    (htab : env.ows_layer_match_table tn = false) :
    check_layers env service cgi layers st ≠ .error srs_nomatch_error := by
  induction layers generalizing st with
  | nil => simp [check_layers]
  | cons x rest ih =>
    unfold check_layers
    cases hc : check_layer env service cgi st x with
    | error e =>
      intro h
      simp only [Except.error.injEq] at h
      subst h
      obtain ⟨name, _, _, _, ht, _, h2, _⟩ :=
        check_layer_nomatch_inv env service cgi st x hc
      rw [htn] at h2
      rw [Option.some.inj h2, ht] at htab
      cases htab
    | ok st1 => exact ih st1

/-- A table-backed layer that the request names and that declares an SRID
list sets the flag when it passes. -/
theorem check_layer_target_sets_flag (env : ows_env) (service : ows_service) (cgi : array)
    (st st1 : buffer × Bool) (x : ows_layer) (srs tn : buffer) (srids : List buffer)
    (hname : x.name = some tn) (hsrid : x.srid = some srids)
    (htab : env.ows_layer_match_table tn = true)
    (hsrs : array_get cgi "srsname" = some srs) (htn : array_get cgi "typename" = some tn)
    (h : check_layer env service cgi st x = .ok st1) : st1.2 = true := by
  unfold check_layer at h
  simp only [hname, htab, if_true] at h
  split_ifs at h
  unfold check_srs at h
  simp only [hsrid, hsrs, htn, if_true] at h
  split_ifs at h with h1 h2
  simp only [Except.ok.injEq] at h
  rw [← h]
  simpa using h2

/-- The error of line 384 is raised at the first layer in catalog order that
the request names and that declares an SRID list: that layer is
table-backed and no entry of its list matches the SRS name. -/
theorem check_layers_nomatch_inv (env : ows_env) (service : ows_service) (cgi : array)
    (layers : List ows_layer) (b0 : buffer)
    (h : check_layers env service cgi layers (b0, false) = .error srs_nomatch_error) :
    ∃ srs tn l srids, array_get cgi "srsname" = some srs ∧
      array_get cgi "typename" = some tn ∧ env.ows_layer_match_table tn = true ∧
      layers.find? (fun x => decide (x.name = some tn) && x.srid.isSome) = some l ∧
      l.srid = some srids ∧ ∀ p ∈ srids, check_regexp srs p = false := by
  induction layers generalizing b0 with
  | nil => simp [check_layers] at h
  | cons x rest ih =>
    unfold check_layers at h
    cases hc : check_layer env service cgi (b0, false) x with
    | error e =>
      simp only [hc, Except.error.injEq] at h
      subst h
      obtain ⟨name, srs, srids, h1, h2, h3, h4, h5, _, h7⟩ :=
        check_layer_nomatch_inv env service cgi (b0, false) x hc
      exact ⟨srs, name, x, srids, h3, h4, h2, by simp [List.find?_cons, h1, h5], h5, h7⟩
    | ok st1 =>
      simp only [hc] at h
      obtain ⟨b1, f1⟩ := st1
      cases f1 with
      | true => exact (check_layers_flag_no_nomatch env service cgi rest b1 h).elim
      | false =>
        obtain ⟨srs, tn, l, srids, h1, h2, h3, h4, h5, h6⟩ := ih b1 h
        refine ⟨srs, tn, l, srids, h1, h2, h3, ?_, h5, h6⟩
        by_cases hpx : (decide (x.name = some tn) && x.srid.isSome) = true
        · simp only [Bool.and_eq_true, decide_eq_true_eq] at hpx
          obtain ⟨hxn, hxs⟩ := hpx
          obtain ⟨s, hs⟩ := Option.isSome_iff_exists.mp hxs
          have := check_layer_target_sets_flag env service cgi (b0, false) (b1, false) x srs tn s
            hxn hs h3 h1 h2 hc
          cases this
        · rw [List.find?_cons]
          simp only [hpx]
          exact h4

/-! ## The kinds of error of each stage -/

theorem parse_error_eq (t : buffer) (e : ows_err)
    (h : ows_request_check_version t = .error e) : e = version_error := by
  unfold ows_request_check_version at h
  split_ifs at h
  · cases h
    rfl
  · split at h
    · split_ifs at h
      cases h
      rfl
    · cases h
      rfl

theorem negotiate_error_code (env : ows_env) (o : ows) (method : ows_method) (cgi : array)
    (e : ows_err) (h : negotiate env o method cgi = .error e) :
    e.code ≠ .OWS_ERROR_CONFIG_FILE := by
  unfold negotiate at h
  cases hs : check_service env o cgi with
  | error e1 =>
    simp only [hs, Except.error.injEq] at h
    subst h
    unfold check_service service_default at hs
    cases hg : array_get cgi "service" <;> simp only [hg] at hs <;> split_ifs at hs <;>
      cases hs <;> simp
  | ok service =>
    simp only [hs] at h
    cases hr : check_request cgi with
    | error e1 =>
      simp only [hr, Except.error.injEq] at h
      subst h
      unfold check_request at hr
      cases hg : array_get cgi "request" <;> simp only [hg] at hr <;> cases hr
      simp
    | ok b =>
      simp only [hr] at h
      cases hv : check_version method service cgi b with
      | ok v => simp [hv] at h
      | error e1 =>
        simp only [hv, Except.error.injEq] at h
        subst h
        have hd : ∀ e2, version_default method service b = .error e2 →
            e2.code ≠ .OWS_ERROR_CONFIG_FILE := by
          intro e2 h2
          unfold version_default at h2
          split_ifs at h2
          all_goals cases h2
          simp
        unfold check_version at hv
        cases hg : array_get cgi "version" with
        | none =>
          simp only [hg] at hv
          exact hd e1 hv
        | some t =>
          simp only [hg] at hv
          split_ifs at hv
          · exact hd e1 hv
          · rw [parse_error_eq t e1 hv]
            simp [version_error]

theorem check_xml_error_code (env : ows_env) (o : ows) (service : ows_service)
    (version : ows_version) (b query : buffer) (e : ows_err)
    (h : check_xml env o service version b query = .error e) :
    e.code = .OWS_ERROR_INVALID_PARAMETER_VALUE := by
  simp only [check_xml] at h
  split_ifs at h
  cases h
  rfl

/-- A configuration error of `ows_request_check` is an error of the layer
scan after a successful negotiation. -/
theorem request_check_config_inv (env : ows_env) (o : ows) (req : ows_request)
    (cgi : array) (query : buffer) (e : ows_err)
    (h : ows_request_check env o req cgi query = .error e)
    (hc : e.code = .OWS_ERROR_CONFIG_FILE) :
    ∃ service b version, negotiate env o req.method cgi = .ok (service, b, version) ∧
      check_layers env service cgi o.layers (b, false) = .error e := by
  unfold ows_request_check before_schema at h
  cases hn : negotiate env o req.method cgi with
  | error e1 =>
    simp only [hn, Except.error.injEq] at h
    subst h
    exact (negotiate_error_code env o req.method cgi e1 hn hc).elim
  | ok t =>
    obtain ⟨service, b, version⟩ := t
    simp only [hn] at h
    cases hl : check_layers env service cgi o.layers (b, false) with
    | error e1 =>
      simp only [hl, Except.error.injEq] at h
      subst h
      exact ⟨service, b, version, rfl, hl⟩
    | ok st =>
      simp only [hl] at h
      cases hx : check_xml env o service version st.1 query with
      | ok u => simp [hx] at h
      | error e1 =>
        simp only [hx, Except.error.injEq] at h
        subst h
        rw [check_xml_error_code env o service version st.1 query e1 hx] at hc
        cases hc

/-! ## Claims on negotiation and schema selection -/

/-- C1 (defect of the code): a Transaction does not always get the
generated schema. The layer scan stores the `srsname` value in the local `b`
(line 366) that line 403 and line 413 compare with "Transaction". For the
posted XML Transaction of `ex_cgi_transaction` (typename `rivers`, srsname
`EPSG:4326`) on a server whose table-backed layer `roads` declares an SRID
list, the request reaches the validation with `b` equal to the srsname
text, and the schema handed over is the 1.1.0 file (the 1.0.0 file under
version 1.0.0), with `schema_is_file` true. -/
theorem C1_transaction_schema_overwritten :
    array_get ex_cgi_transaction "request" = some "Transaction".toList ∧
    array_get ex_cgi_transaction_100 "request" = some "Transaction".toList ∧
    xml_bodied ex_env_xml "<Transaction/>".toList = true ∧
    ex_ows.check_schema = true ∧
    before_schema ex_env_xml ex_ows ex_req_xml.method ex_cgi_transaction
      = .ok (.WFS, ⟨1, 1, 0⟩, "EPSG:4326".toList) ∧
    schema_select ex_env_xml ex_ows ⟨1, 1, 0⟩ "EPSG:4326".toList
      = ("/usr/share/tinyows/schema/wfs/1.1.0/wfs.xsd".toList, true) ∧
    before_schema ex_env_xml ex_ows ex_req_xml.method ex_cgi_transaction_100
      = .ok (.WFS, ⟨1, 0, 0⟩, "EPSG:4326".toList) ∧
    schema_select ex_env_xml ex_ows ⟨1, 0, 0⟩ "EPSG:4326".toList
      = ("/usr/share/tinyows/schema/wfs/1.0.0/WFS-basic.xsd".toList, true) := by
  decide

/-- C2: version defaulting. When the service resolved, the request name `b`
is present and the version is absent or empty: if `b` is not
GetCapabilities (ignoring case), the KVP method makes `ows_request_check`
fail with MissingParameter, locator VERSION, and the XML method makes
negotiation succeed with version (1,1,0) for WFS and (1,3,0) for WMS; if `b`
is GetCapabilities, negotiation succeeds with the version at the sentinel
(0,0,0) whatever the method. A successful `ows_request_check` leaves the
negotiated version in the request. -/
theorem C2_version_defaulting (env : ows_env) (o : ows) (req : ows_request) (cgi : array)
    (query : buffer) (service : ows_service) (b : buffer)
    (hs : check_service env o cgi = .ok service)
    (hb : array_get cgi "request" = some b)
    (hv : array_is_key cgi "version" = false ∨ array_get cgi "version" = some []) :
    (buffer_case_cmp b "GetCapabilities" = false →
      (req.method = .OWS_METHOD_KVP →
        ows_request_check env o req cgi query
          = .error ⟨.OWS_ERROR_MISSING_PARAMETER_VALUE, "VERSION is not set", "VERSION"⟩) ∧
      (req.method = .OWS_METHOD_XML →
        (service = .WFS ∨ service = .WMS) ∧
        (service = .WFS → negotiate env o req.method cgi = .ok (.WFS, b, ⟨1, 1, 0⟩)) ∧
        (service = .WMS → negotiate env o req.method cgi = .ok (.WMS, b, ⟨1, 3, 0⟩)))) ∧
    (buffer_case_cmp b "GetCapabilities" = true →
      negotiate env o req.method cgi = .ok (service, b, ⟨0, 0, 0⟩)) ∧
    (∀ version r, negotiate env o req.method cgi = .ok (service, b, version) →
      ows_request_check env o req cgi query = .ok r → r.version = some version) := by
  have hver : check_version req.method service cgi b = version_default req.method service b := by
    rcases hv with hv | hv
    · simp [check_version, array_get_none_of_not_key hv]
    · simp [check_version, hv, buffer_cmp]
  have hsv : service = .WFS ∨ service = .WMS := by
    unfold check_service service_default at hs
    revert hs
    cases array_get cgi "service" <;> simp only <;> split_ifs <;> simp <;>
      intro h <;> simp [← h]
  refine ⟨fun hgc => ⟨fun hm => ?_, fun hm => ⟨hsv, fun hw => ?_, fun hw => ?_⟩⟩, fun hgc => ?_,
    fun version r hneg hr => ?_⟩
  · rw [hm] at hver
    simp [ows_request_check, before_schema, negotiate, hs, check_request, hb, hver,
      version_default, hgc, hm]
  · subst hw
    rw [hm] at hver
    simp [negotiate, hs, check_request, hb, hver, version_default, hgc, hm]
  · subst hw
    rw [hm] at hver
    simp [negotiate, hs, check_request, hb, hver, version_default, hgc, hm]
  · simp [negotiate, hs, check_request, hb, hver, version_default, hgc, ows_version_init]
  · exact (request_check_ok_fields env o req cgi query service b version r hneg hr).2.1

/-- Witness of C2: a posted XML GetFeature with neither service nor version
on the WFS server `ex_ows` is negotiated to version (1,1,0). -/
theorem C2_version_defaulting_witness :
    negotiate ex_env_xml ex_ows ex_req_xml.method ex_cgi_getfeature
      = .ok (.WFS, "GetFeature".toList, ⟨1, 1, 0⟩) :=
  ((C2_version_defaulting ex_env_xml ex_ows ex_req_xml ex_cgi_getfeature [] .WFS
    "GetFeature".toList (by decide) (by decide) (Or.inl (by decide))).1 (by decide)).2
    rfl |>.2.1 rfl

/-- C4: service resolution with a `service` value `v`. Ignoring case, "WMS"
resolves WMS and "WFS" resolves WFS; "WCS" makes `ows_request_check` fail
with InvalidParameterValue, locator "service", message "service not
implemented"; the empty text gives the server default (WMS, WFS, or the
failure "service unknown"), which is the result of every request without a
`service` key that is not an HTTP GET; every other `v` makes
`ows_request_check` fail with InvalidParameterValue "service unknown". -/
theorem C4_service_present (env : ows_env) (o : ows) (req : ows_request) (cgi : array)
    (query : buffer) (v : buffer) (h : array_get cgi "service" = some v) :
    (buffer_case_cmp v "WMS" = true → check_service env o cgi = .ok .WMS) ∧
    (buffer_case_cmp v "WFS" = true → check_service env o cgi = .ok .WFS) ∧
    (buffer_case_cmp v "WCS" = true →
      ows_request_check env o req cgi query
        = .error ⟨.OWS_ERROR_INVALID_PARAMETER_VALUE, "service not implemented", "service"⟩) ∧
    (v = [] →
      (buffer_case_cmp o.metadata_type "WMS" = true → check_service env o cgi = .ok .WMS) ∧
      (buffer_case_cmp o.metadata_type "WFS" = true → check_service env o cgi = .ok .WFS) ∧
      (buffer_case_cmp o.metadata_type "WMS" = false →
        buffer_case_cmp o.metadata_type "WFS" = false →
        ows_request_check env o req cgi query
          = .error ⟨.OWS_ERROR_INVALID_PARAMETER_VALUE, "service unknown", "service"⟩) ∧
      (∀ (env2 : ows_env) (cgi2 : array), array_is_key cgi2 "service" = false →
        env2.cgi_method_get = false → check_service env2 o cgi2 = check_service env o cgi)) ∧
    (buffer_case_cmp v "WMS" = false → buffer_case_cmp v "WFS" = false →
      buffer_case_cmp v "WCS" = false → v ≠ [] →
      ows_request_check env o req cgi query
        = .error ⟨.OWS_ERROR_INVALID_PARAMETER_VALUE, "service unknown", "service"⟩) := by
  have hne : ∀ s : String, s.toList ≠ [] → buffer_case_cmp ([] : buffer) s = false := by
    intro s hs
    cases hc : buffer_case_cmp ([] : buffer) s with
    | false => rfl
    | true => exact (hs (case_cmp_nil s hc)).elim
  refine ⟨fun hw => ?_, fun hw => ?_, fun hw => ?_, fun hv => ?_, fun h1 h2 h3 h4 => ?_⟩
  · simp [check_service, h, hw]
  · have h1 : buffer_case_cmp v "WMS" = false := by
      cases h1 : buffer_case_cmp v "WMS" with
      | false => rfl
      | true => exact (case_cmp_WMS_WFS _ h1 hw).elim
    simp [check_service, h, hw, h1]
  · have h1 : buffer_case_cmp v "WMS" = false := by
      cases h1 : buffer_case_cmp v "WMS" with
      | false => rfl
      | true => exact (case_cmp_WMS_WCS _ h1 hw).elim
    have h2 : buffer_case_cmp v "WFS" = false := by
      cases h2 : buffer_case_cmp v "WFS" with
      | false => rfl
      | true => exact (case_cmp_WFS_WCS _ h2 hw).elim
    exact request_check_of_service_error env o req cgi query _
      (by simp [check_service, h, hw, h1, h2])
  · subst hv
    have e1 := hne "WMS" (by decide)
    have e2 := hne "WFS" (by decide)
    have e3 := hne "WCS" (by decide)
    have e4 : buffer_case_cmp ([] : buffer) "" = true := by decide
    have hd : check_service env o cgi = service_default o := by
      simp [check_service, h, e1, e2, e3, e4]
    refine ⟨fun hw => ?_, fun hw => ?_, fun h1 h2 => ?_, fun env2 cgi2 hk hget => ?_⟩
    · simp [hd, service_default, hw]
    · have h1 : buffer_case_cmp o.metadata_type "WMS" = false := by
        cases h1 : buffer_case_cmp o.metadata_type "WMS" with
        | false => rfl
        | true => exact (case_cmp_WMS_WFS _ h1 hw).elim
      simp [hd, service_default, hw, h1]
    · exact request_check_of_service_error env o req cgi query _
        (by simp [hd, service_default, h1, h2])
    · rw [hd]
      simp [check_service, array_get_none_of_not_key hk, hget]
  · have h5 : buffer_case_cmp v "" = false := by
      cases h5 : buffer_case_cmp v "" with
      | false => rfl
      | true =>
        simp only [buffer_case_cmp, beq_iff_eq] at h5
        exact (h4 (List.map_eq_nil_iff.mp h5)).elim
    exact request_check_of_service_error env o req cgi query _
      (by simp [check_service, h, h1, h2, h3, h5])

/-- Witness of C4: an empty `service` value on the WFS server resolves WFS,
as a posted request without the key does. -/
theorem C4_service_present_witness :
    check_service ex_env_xml ex_ows ex_cgi_empty_service = .ok .WFS ∧
    check_service ex_env_form ex_ows ex_cgi_getfeature
      = check_service ex_env_xml ex_ows ex_cgi_empty_service :=
  have h := (C4_service_present ex_env_xml ex_ows ex_req_xml ex_cgi_empty_service [] []
    (by decide)).2.2.2.1 rfl
  ⟨h.2.1 (by decide), h.2.2.2 ex_env_form ex_cgi_getfeature (by decide) rfl⟩

/-- C5 as stated fails on the values: the fields of a version are C `int`s
filled by `atoi`, so a segment above 2147483647 is not stored as its
decimal value. The text "2147483648.0.0" has three segments of digits and
parses, to the major number -2147483648. -/
theorem C5_counterexample :
    list_explode '.' "2147483648.0.0".toList = ["2147483648".toList, "0".toList, "0".toList] ∧
    all_digits "2147483648".toList = true ∧ all_digits "0".toList = true ∧
    decimal_value "2147483648".toList = 2147483648 ∧
    ows_request_check_version "2147483648.0.0".toList = .ok ⟨-2147483648, 0, 0⟩ ∧
    ows_request_check_version "2147483648.0.0".toList
      ≠ .ok ⟨(decimal_value "2147483648".toList : Int), (decimal_value "0".toList : Int),
          (decimal_value "0".toList : Int)⟩ := by
  decide

/-- C5 (amended): version parsing. For every non-empty version text `t`,
`ows_request_check_version` succeeds if and only if `t` splits on '.' into
exactly three segments, each a non-empty text of decimal digits; on success
the version is the triple `atoi` gives for the three segments in order,
which is the triple of their decimal values whenever each value is at most
2147483647; on every other non-empty `t` the result is the failure
InvalidParameterValue with locator "version". -/
theorem C5_version_parsing (t : buffer) (ht : t ≠ []) :
    ((∃ v, ows_request_check_version t = .ok v) ↔
      ∃ s1 s2 s3, list_explode '.' t = [s1, s2, s3] ∧ all_digits s1 = true ∧
        all_digits s2 = true ∧ all_digits s3 = true) ∧
    (∀ s1 s2 s3, list_explode '.' t = [s1, s2, s3] → all_digits s1 = true →
      all_digits s2 = true → all_digits s3 = true →
      ows_request_check_version t = .ok ⟨atoi s1, atoi s2, atoi s3⟩ ∧
      (decimal_value s1 < 2 ^ 31 → decimal_value s2 < 2 ^ 31 → decimal_value s3 < 2 ^ 31 →
        ows_request_check_version t
          = .ok ⟨(decimal_value s1 : Int), (decimal_value s2 : Int), (decimal_value s3 : Int)⟩)) ∧
    ((¬ ∃ s1 s2 s3, list_explode '.' t = [s1, s2, s3] ∧ all_digits s1 = true ∧
        all_digits s2 = true ∧ all_digits s3 = true) →
      ows_request_check_version t
        = .error ⟨.OWS_ERROR_INVALID_PARAMETER_VALUE,
            "VERSION parameter is not valid (use x.y.z)", "version"⟩) := by
  have hok : ∀ s1 s2 s3, list_explode '.' t = [s1, s2, s3] → all_digits s1 = true →
      all_digits s2 = true → all_digits s3 = true →
      ows_request_check_version t = .ok ⟨atoi s1, atoi s2, atoi s3⟩ := by
    intro s1 s2 s3 hx h1 h2 h3
    rw [check_version_eq t ht, hx]
    simp [h1, h2, h3]
  have herr : (¬ ∃ s1 s2 s3, list_explode '.' t = [s1, s2, s3] ∧ all_digits s1 = true ∧
        all_digits s2 = true ∧ all_digits s3 = true) →
      ows_request_check_version t = .error version_error := by
    intro hn
    rw [check_version_eq t ht]
    split
    · rename_i s1 s2 s3 hx
      by_cases hd : (all_digits s1 && all_digits s2 && all_digits s3) = true
      · simp only [Bool.and_eq_true] at hd
        exact (hn ⟨s1, s2, s3, hx, hd.1.1, hd.1.2, hd.2⟩).elim
      · simp [hd]
    · rfl
  refine ⟨⟨fun ⟨v, hv⟩ => ?_, fun ⟨s1, s2, s3, hx, h1, h2, h3⟩ => ⟨_, hok s1 s2 s3 hx h1 h2 h3⟩⟩,
    fun s1 s2 s3 hx h1 h2 h3 => ⟨hok s1 s2 s3 hx h1 h2 h3, fun b1 b2 b3 => ?_⟩, herr⟩
  · by_contra hn
    rw [herr hn] at hv
    cases hv
  · rw [hok s1 s2 s3 hx h1 h2 h3, atoi_eq_decimal s1 h1 b1, atoi_eq_decimal s2 h2 b2,
      atoi_eq_decimal s3 h3 b3]

/-- Witness of C5: "1.1.0" parses to (1,1,0). -/
theorem C5_version_parsing_witness :
    ows_request_check_version "1.1.0".toList = .ok ⟨1, 1, 0⟩ :=
  ((C5_version_parsing "1.1.0".toList (by decide)).2.1 "1".toList "1".toList "0".toList
    (by decide) (by decide) (by decide) (by decide)).2 (by decide) (by decide) (by decide)

/-- C6 as stated fails twice. First, for a layer that is not table-backed:
with no table lookup hit, the request for `roads` with the srsname
"NotAPrefix:1" passes the scan and is admitted, although the layer `roads`
declares a non-empty SRID list and the typename equals its name. Second,
the test of lines 371-373 is a pattern match whose dots stand for any
character: on the table-backed `roads` the srsname
"http://www-opengis-net/def/crs/EPSG/0/4326" starts with none of the three
texts, yet it passes the test (and matches the SRID pattern 4326). -/
theorem C6_counterexample :
    (negotiate ex_env_no_table ex_ows ex_req_xml.method ex_cgi_bad_srs
        = .ok (.WFS, "GetFeature".toList, ⟨1, 1, 0⟩) ∧
      (∀ x ∈ ex_ows.layers, layer_defect ex_env_no_table .WFS x = none) ∧
      ex_layer_roads ∈ ex_ows.layers ∧
      ex_layer_roads.srid = some ["4326".toList] ∧
      array_get ex_cgi_bad_srs "typename" = ex_layer_roads.name ∧
      array_get ex_cgi_bad_srs "srsname" = some "NotAPrefix:1".toList ∧
      ¬ "http://www.opengis.net".toList <+: "NotAPrefix:1".toList ∧
      ¬ "EPSG".toList <+: "NotAPrefix:1".toList ∧
      ¬ "urn:".toList <+: "NotAPrefix:1".toList ∧
      ows_request_check ex_env_no_table ex_ows ex_req_xml ex_cgi_bad_srs "<GetFeature/>".toList
        = .ok { version := some ⟨1, 1, 0⟩, service := .WFS, method := .OWS_METHOD_XML }) ∧
    (negotiate ex_env_xml ex_ows ex_req_xml.method ex_cgi_wild_srs
        = .ok (.WFS, "GetFeature".toList, ⟨1, 1, 0⟩) ∧
      (∀ x ∈ ex_ows.layers, layer_defect ex_env_xml .WFS x = none) ∧
      ex_layer_roads ∈ ex_ows.layers ∧
      ex_layer_roads.srid = some ["4326".toList] ∧
      table_backed ex_env_xml ex_layer_roads = true ∧
      array_get ex_cgi_wild_srs "typename" = ex_layer_roads.name ∧
      array_get ex_cgi_wild_srs "srsname"
        = some "http://www-opengis-net/def/crs/EPSG/0/4326".toList ∧
      ¬ "http://www.opengis.net".toList <+: "http://www-opengis-net/def/crs/EPSG/0/4326".toList ∧
      ¬ "EPSG".toList <+: "http://www-opengis-net/def/crs/EPSG/0/4326".toList ∧
      ¬ "urn:".toList <+: "http://www-opengis-net/def/crs/EPSG/0/4326".toList ∧
      ows_request_check ex_env_xml ex_ows ex_req_xml ex_cgi_wild_srs "<GetFeature/>".toList
        = .ok { version := some ⟨1, 1, 0⟩, service := .WFS, method := .OWS_METHOD_XML }) := by
  refine ⟨⟨?_, ?_, ?_, ?_, ?_, ?_, ?_, ?_, ?_, ?_⟩, ?_, ?_, ?_, ?_, ?_, ?_, ?_, ?_, ?_, ?_, ?_⟩
  all_goals decide

/-- C6 (amended): the test on the form of the SRS name. For a request that
passed negotiation and a catalog whose layers all pass the name, title,
prefix and server checks: if some table-backed layer declares an SRID list,
the request has `srsname` and `typename`, `typename` equals the name of that
layer, and the `srsname` value matches none of the patterns
`^http://www.opengis.net`, `^EPSG`, `^urn:`, then `ows_request_check` fails
with the configuration error "srsname isn't valid", locator "srsName",
whatever the SRID list holds. -/
theorem C6_srs_form_check (env : ows_env) (o : ows) (req : ows_request) (cgi : array)
    (query : buffer) (service : ows_service) (b : buffer) (version : ows_version)
    (srs tn : buffer) (l : ows_layer) (srids : List buffer)
    (hneg : negotiate env o req.method cgi = .ok (service, b, version))
    (hmeta : ∀ x ∈ o.layers, layer_defect env service x = none)
    (hl : l ∈ o.layers) (hname : l.name = some tn) (htab : table_backed env l = true)
    (hsrid : l.srid = some srids)
    (hsrs : array_get cgi "srsname" = some srs) (htn : array_get cgi "typename" = some tn)
    (h1 : check_regexp srs "^http://www.opengis.net".toList = false)
    (h2 : check_regexp srs "^EPSG".toList = false)
    (h3 : check_regexp srs "^urn:".toList = false) :
    ows_request_check env o req cgi query
      = .error ⟨.OWS_ERROR_CONFIG_FILE, "srsname isn't valid", "srsName"⟩ := by
  have htab2 : env.ows_layer_match_table tn = true := by
    simpa [table_backed, hname] using htab
  exact request_check_of_layers_error env o req cgi query service b version _ hneg
    (check_layers_bad_lead env service cgi o.layers srs tn l srids hmeta hl hname htab2 hsrid
      hsrs htn h1 h2 h3 (b, false))

/-- Witness of C6: on the table-backed layer `roads` the srsname
"NotAPrefix:1" is refused. -/
theorem C6_srs_form_check_witness :
    ows_request_check ex_env_xml ex_ows ex_req_xml ex_cgi_bad_srs "<GetFeature/>".toList
      = .error ⟨.OWS_ERROR_CONFIG_FILE, "srsname isn't valid", "srsName"⟩ :=
  C6_srs_form_check ex_env_xml ex_ows ex_req_xml ex_cgi_bad_srs "<GetFeature/>".toList .WFS
    "GetFeature".toList ⟨1, 1, 0⟩ "NotAPrefix:1".toList "roads".toList ex_layer_roads
    ["4326".toList] (by decide) (by decide) (by decide) rfl (by decide) rfl (by decide)
    (by decide) (by decide) (by decide) (by decide)

/-- C7: acceptance of an SRS name. For a request that passed negotiation and
a catalog whose layers all pass the name, title, prefix and server checks:
if the `srsname` value starts with "http://www.opengis.net", "EPSG" or
"urn:" and matches a pattern of the SRID list of the first layer in catalog
order whose name equals `typename` and that declares an SRID list, then the
layer scan raises no error, and the request reaches the schema stage. -/
theorem C7_srs_acceptance (env : ows_env) (o : ows) (req : ows_request) (cgi : array)
    (service : ows_service) (b : buffer) (version : ows_version)
    (srs tn : buffer) (l : ows_layer) (srids : List buffer) (p : buffer)
    (hneg : negotiate env o req.method cgi = .ok (service, b, version))
    (hmeta : ∀ x ∈ o.layers, layer_defect env service x = none)
    (hsrs : array_get cgi "srsname" = some srs) (htn : array_get cgi "typename" = some tn)
    (hlead : "http://www.opengis.net".toList <+: srs ∨ "EPSG".toList <+: srs
      ∨ "urn:".toList <+: srs)
    (hfirst : o.layers.find? (fun x => decide (x.name = some tn) && x.srid.isSome) = some l)
    (hsrid : l.srid = some srids) (hp : p ∈ srids) (hm : check_regexp srs p = true) :
    ∃ st, check_layers env service cgi o.layers (b, false) = .ok st ∧
      before_schema env o req.method cgi = .ok (service, version, st.1) := by
  obtain ⟨st, hst⟩ := check_layers_first_match env service cgi o.layers srs tn l srids p hmeta
    hsrs htn (lead_test_of_literal srs hlead) hfirst hsrid hp hm b
  exact ⟨st, hst, by simp [before_schema, hneg, hst]⟩

/-- Witness of C7: the layer `roads` declares the pattern `^EPSG:4326$`, the
typename is `roads` and the srsname is "EPSG:4326". -/
theorem C7_srs_acceptance_witness :
    ∃ st, check_layers ex_env_xml .WFS ex_cgi_epsg ex_ows_epsg.layers ("GetFeature".toList, false)
        = .ok st ∧
      before_schema ex_env_xml ex_ows_epsg ex_req_xml.method ex_cgi_epsg
        = .ok (.WFS, ⟨1, 1, 0⟩, st.1) :=
  C7_srs_acceptance ex_env_xml ex_ows_epsg ex_req_xml ex_cgi_epsg .WFS "GetFeature".toList
    ⟨1, 1, 0⟩ "EPSG:4326".toList "roads".toList
    { ex_layer_roads with srid := some ["^EPSG:4326$".toList] } ["^EPSG:4326$".toList]
    "^EPSG:4326$".toList (by decide) (by decide) (by decide) (by decide)
    (Or.inr (Or.inl (by decide))) (by decide) rfl (by decide) (by decide)

/-- C8: a named table-backed layer without title makes `ows_request_check`
fail with a configuration error for every parameter set that passes
negotiation, whatever the other parameters, the other layers and the body
are. -/
theorem C8_untitled_layer (env : ows_env) (o : ows) (req : ows_request) (cgi : array)
    (query : buffer) (service : ows_service) (b : buffer) (version : ows_version)
    (l : ows_layer) (name : buffer)
    (hneg : negotiate env o req.method cgi = .ok (service, b, version))
    (hl : l ∈ o.layers) (hname : l.name = some name)
    (htab : env.ows_layer_match_table name = true) (htitle : l.title = none) :
    ∃ e, ows_request_check env o req cgi query = .error e ∧
      e.code = .OWS_ERROR_CONFIG_FILE := by
  have hd : layer_defect env service l ≠ none := by
    simp [layer_defect, table_backed, hname, htab, htitle]
  obtain ⟨e, he⟩ := check_layers_of_defect env service cgi o.layers (b, false) l hl hd
  exact ⟨e, request_check_of_layers_error env o req cgi query service b version e hneg he,
    check_layers_code env service cgi o.layers (b, false) e he⟩

/-- Witness of C8: the server with the untitled layer `lakes` refuses a
posted GetFeature with a configuration error. -/
theorem C8_untitled_layer_witness :
    ∃ e, ows_request_check ex_env_xml ex_ows_untitled ex_req_xml ex_cgi_getfeature [] = .error e ∧
      e.code = .OWS_ERROR_CONFIG_FILE :=
  C8_untitled_layer ex_env_xml ex_ows_untitled ex_req_xml ex_cgi_getfeature [] .WFS
    "GetFeature".toList ⟨1, 1, 0⟩ { ex_layer_roads with name := some "lakes".toList, title := none }
    "lakes".toList (by decide) (by decide) rfl rfl rfl

/-- C9: metadata completeness. For a request that passed negotiation and
lacks `srsname` or `typename`, the layer scan gives the defect of the first
defective layer in catalog order (precedence name, title, prefix, server)
and passes with its locals unchanged when there is none; so it raises no
error if and only if every layer has a name, every table-backed layer has a
title and, under WFS, a prefix and a server; under WMS a missing prefix or
server fails nothing. -/
theorem C9_metadata_completeness (env : ows_env) (o : ows) (req : ows_request) (cgi : array)
    (service : ows_service) (b : buffer) (version : ows_version)
    (hneg : negotiate env o req.method cgi = .ok (service, b, version))
    (hkeys : array_is_key cgi "srsname" = false ∨ array_is_key cgi "typename" = false) :
    (check_layers env service cgi o.layers (b, false) =
      match o.layers.findSome? (layer_defect env service) with
      | some e => .error e
      | none => .ok (b, false)) ∧
    ((∃ st, check_layers env service cgi o.layers (b, false) = .ok st) ↔
      ∀ l ∈ o.layers, l.name ≠ none ∧ (table_backed env l = true →
        l.title ≠ none ∧ (service = .WFS → l.pfx ≠ none ∧ l.server ≠ none))) ∧
    (service = .WMS →
      (∀ l ∈ o.layers, l.name ≠ none ∧ (table_backed env l = true → l.title ≠ none)) →
      ∃ st, check_layers env service cgi o.layers (b, false) = .ok st) ∧
    ((∃ r, before_schema env o req.method cgi = .ok r) ↔
      ∃ st, check_layers env service cgi o.layers (b, false) = .ok st) := by
  have heq := check_layers_no_keys env service cgi o.layers (b, false) hkeys
  have hiff : (∃ st, check_layers env service cgi o.layers (b, false) = .ok st) ↔
      ∀ l ∈ o.layers, l.name ≠ none ∧ (table_backed env l = true →
        l.title ≠ none ∧ (service = .WFS → l.pfx ≠ none ∧ l.server ≠ none)) := by
    rw [heq]
    constructor
    · intro ⟨st, hst⟩ l hl
      cases hf : o.layers.findSome? (layer_defect env service) with
      | some e => simp [hf] at hst
      | none =>
        exact (layer_defect_none_iff env service l).mp (List.findSome?_eq_none_iff.mp hf l hl)
    · intro hall
      have hf : o.layers.findSome? (layer_defect env service) = none :=
        List.findSome?_eq_none_iff.mpr
          (fun l hl => (layer_defect_none_iff env service l).mpr (hall l hl))
      exact ⟨(b, false), by simp [hf]⟩
  refine ⟨heq, hiff, fun hw hall => hiff.mpr (fun l hl => ⟨(hall l hl).1, fun ht =>
    ⟨(hall l hl).2 ht, fun hwfs => ?_⟩⟩), ?_⟩
  · rw [hw] at hwfs
    cases hwfs
  · simp only [before_schema, hneg]
    constructor
    · intro ⟨r, hr⟩
      cases hc : check_layers env service cgi o.layers (b, false) with
      | error e => simp [hc] at hr
      | ok st => exact ⟨st, rfl⟩
    · intro ⟨st, hst⟩
      exact ⟨(service, version, st.1), by simp [hst]⟩

/-- Witness of C9: the complete catalog of `ex_ows` passes the scan of a
request without `srsname` and `typename`. -/
theorem C9_metadata_completeness_witness :
    check_layers ex_env_xml .WFS ex_cgi_getfeature ex_ows.layers ("GetFeature".toList, false)
      = .ok ("GetFeature".toList, false) :=
  (C9_metadata_completeness ex_env_xml ex_ows ex_req_xml ex_cgi_getfeature .WFS
    "GetFeature".toList ⟨1, 1, 0⟩ (by decide) (Or.inl (by decide))).1

/-- C10: the schema gate. For a request that passed negotiation and the
layer scan, `ows_request_check` fails if and only if the request has an XML
body, the service is WFS, schema checking is on and `ows_schema_validation`
returns a value other than 0 for the selected schema; the failure is then
InvalidParameterValue "xml isn't valid" with locator "request"; in every
other case the request is admitted with the negotiated service and version,
a result in which the validator has no part. -/
theorem C10_schema_gate (env : ows_env) (o : ows) (req : ows_request) (cgi : array)
    (query : buffer) (service : ows_service) (version : ows_version) (b : buffer)
    (hpre : before_schema env o req.method cgi = .ok (service, version, b)) :
    ((∃ e, ows_request_check env o req cgi query = .error e) ↔
      (is_xml_bodied env query ∧ service = .WFS ∧ o.check_schema = true ∧
        ows_schema_validation env (schema_select env o version b).1 query
          (schema_select env o version b).2 ≠ 0)) ∧
    ((is_xml_bodied env query ∧ service = .WFS ∧ o.check_schema = true ∧
        ows_schema_validation env (schema_select env o version b).1 query
          (schema_select env o version b).2 ≠ 0) →
      ows_request_check env o req cgi query
        = .error ⟨.OWS_ERROR_INVALID_PARAMETER_VALUE, "xml isn't valid", "request"⟩) ∧
    (¬ (is_xml_bodied env query ∧ service = .WFS ∧ o.check_schema = true ∧
        ows_schema_validation env (schema_select env o version b).1 query
          (schema_select env o version b).2 ≠ 0) →
      ows_request_check env o req cgi query
        = .ok { req with service := service, version := some version }) := by
  have hx : xml_bodied env query = true ↔ is_xml_bodied env query := by
    unfold xml_bodied is_xml_bodied buffer_cmp
    simp [and_assoc]
  have hfail : (is_xml_bodied env query ∧ service = .WFS ∧ o.check_schema = true ∧
        ows_schema_validation env (schema_select env o version b).1 query
          (schema_select env o version b).2 ≠ 0) →
      ows_request_check env o req cgi query
        = .error ⟨.OWS_ERROR_INVALID_PARAMETER_VALUE, "xml isn't valid", "request"⟩ := by
    intro ⟨h1, h2, h3, h4⟩
    simp [ows_request_check, hpre, check_xml, hx.mpr h1, h2, h3, h4]
  have hpass : ¬ (is_xml_bodied env query ∧ service = .WFS ∧ o.check_schema = true ∧
        ows_schema_validation env (schema_select env o version b).1 query
          (schema_select env o version b).2 ≠ 0) →
      ows_request_check env o req cgi query
        = .ok { req with service := service, version := some version } := by
    intro hn
    simp only [ows_request_check, hpre, check_xml]
    by_cases h1 : xml_bodied env query = true
    · by_cases h23 : service = .WFS ∧ o.check_schema = true
      · have h4 : ¬ ows_schema_validation env (schema_select env o version b).1 query
            (schema_select env o version b).2 ≠ 0 :=
          fun h4 => hn ⟨hx.mp h1, h23.1, h23.2, h4⟩
        simp [h1, h23, h4]
      · simp [h1, h23]
    · simp [h1]
  refine ⟨⟨fun ⟨e, he⟩ => ?_, fun h => ⟨_, hfail h⟩⟩, hfail, hpass⟩
  by_contra hn
  rw [hpass hn] at he
  cases he

/-- Witness of C10: with a validator that reports an invalid document, the
posted XML GetFeature on the WFS server is refused. -/
theorem C10_schema_gate_witness :
    ows_request_check ex_env_invalid ex_ows ex_req_xml ex_cgi_getfeature "<GetFeature/>".toList
      = .error ⟨.OWS_ERROR_INVALID_PARAMETER_VALUE, "xml isn't valid", "request"⟩ :=
  (C10_schema_gate ex_env_invalid ex_ows ex_req_xml ex_cgi_getfeature "<GetFeature/>".toList
    .WFS ⟨1, 1, 0⟩ "GetFeature".toList (by decide)).2.1
    ⟨Or.inl ⟨rfl, by decide⟩, rfl, rfl, by decide⟩

/-! ## Claims on the pipeline, the validator and the version parser -/

/-- C11 (defect of the code, the one of C1): an operation other than
Transaction does not always get the schema file. The layer scan stores the
`srsname` value in the local `b` (line 366) that lines 403 and 413 compare
with "Transaction". For the posted XML GetFeature of
`ex_cgi_getfeature_odd` (typename `rivers`, srsname `Transaction`) on a
server whose table-backed layer `roads` declares an SRID list, the request
reaches the validation with `b` equal to "Transaction", and the schema
handed over is the generated one with `schema_is_file` false, under version
1.1.0 and under version 1.0.0. -/
theorem C11_getfeature_schema_generated :
    array_get ex_cgi_getfeature_odd "request" = some "GetFeature".toList ∧
    array_get ex_cgi_getfeature_odd_100 "request" = some "GetFeature".toList ∧
    buffer_cmp "GetFeature".toList "Transaction" = false ∧
    xml_bodied ex_env_xml "<GetFeature/>".toList = true ∧
    ex_ows.check_schema = true ∧
    before_schema ex_env_xml ex_ows ex_req_xml.method ex_cgi_getfeature_odd
      = .ok (.WFS, ⟨1, 1, 0⟩, "Transaction".toList) ∧
    schema_select ex_env_xml ex_ows ⟨1, 1, 0⟩ "Transaction".toList
      = ("<xs:schema/>".toList, false) ∧
    before_schema ex_env_xml ex_ows ex_req_xml.method ex_cgi_getfeature_odd_100
      = .ok (.WFS, ⟨1, 0, 0⟩, "Transaction".toList) ∧
    schema_select ex_env_xml ex_ows ⟨1, 0, 0⟩ "Transaction".toList
      = ("<xs:schema/>".toList, false) := by
  decide

/-- C12: the stages run in the order service, request name, version, layer
scan, schema validation, and the first failure is the result. An error of
service resolution, then of the request name, then of the version is the
result of `ows_request_check`; an error of negotiation is the result
whatever the catalog, the body and the XML library are; after a successful
negotiation an error of the layer scan is the result, it is a configuration
error, and it stays the result whatever the body and the XML library are;
and an error of the validation is the result once the scan passed. -/
theorem C12_stage_order (env : ows_env) (o : ows) (req : ows_request) (cgi : array)
    (query : buffer) :
    (∀ e, check_service env o cgi = .error e →
      ows_request_check env o req cgi query = .error e) ∧
    (∀ service e, check_service env o cgi = .ok service → check_request cgi = .error e →
      ows_request_check env o req cgi query = .error e) ∧
    (∀ service b e, check_service env o cgi = .ok service → check_request cgi = .ok b →
      check_version req.method service cgi b = .error e →
      ows_request_check env o req cgi query = .error e) ∧
    (∀ e, negotiate env o req.method cgi = .error e →
      ∀ (layers : List ows_layer) (query2 : buffer) (f1 : Bool → buffer → Bool)
        (f2 : buffer → Bool) (f3 : Bool → buffer → buffer → Int),
        ows_request_check
          { env with xmlSchemaParse := f1, xmlParseMemory := f2, xmlSchemaValidateDoc := f3 }
          { o with layers := layers } req cgi query2 = .error e) ∧
    (∀ service b version e, negotiate env o req.method cgi = .ok (service, b, version) →
      check_layers env service cgi o.layers (b, false) = .error e →
      e.code = .OWS_ERROR_CONFIG_FILE ∧
      ∀ (query2 : buffer) (f1 : Bool → buffer → Bool) (f2 : buffer → Bool)
        (f3 : Bool → buffer → buffer → Int),
        ows_request_check
          { env with xmlSchemaParse := f1, xmlParseMemory := f2, xmlSchemaValidateDoc := f3 }
          o req cgi query2 = .error e) ∧
    (∀ service b version st e, negotiate env o req.method cgi = .ok (service, b, version) →
      check_layers env service cgi o.layers (b, false) = .ok st →
      check_xml env o service version st.1 query = .error e →
      ows_request_check env o req cgi query = .error e) := by
  refine ⟨fun e h => request_check_of_service_error env o req cgi query e h,
    fun service e hs hr => ?_, fun service b e hs hr hv => ?_, fun e hn layers query2 f1 f2 f3 => ?_,
    fun service b version e hn hl => ⟨check_layers_code env service cgi o.layers (b, false) e hl,
      fun query2 f1 f2 f3 => ?_⟩, fun service b version st e hn hl hx => ?_⟩
  · simp [ows_request_check, before_schema, negotiate, hs, hr]
  · simp [ows_request_check, before_schema, negotiate, hs, hr, hv]
  · exact request_check_of_negotiate_error _ _ req cgi query2 e hn
  · have hl2 := (check_layers_env env
      { env with xmlSchemaParse := f1, xmlParseMemory := f2, xmlSchemaValidateDoc := f3 }
      service cgi o.layers (b, false) rfl).trans hl
    exact request_check_of_layers_error _ o req cgi query2 service b version e hn hl2
  · simp [ows_request_check, before_schema, hn, hl, hx]

/-- Witness of C12: a malformed version is reported whatever the catalog
and the body are, here with an empty catalog and an empty body. -/
theorem C12_stage_order_witness :
    ows_request_check
      { ex_env_xml with xmlSchemaParse := fun _ _ => false, xmlParseMemory := fun _ => false,
                        xmlSchemaValidateDoc := fun _ _ _ => 1 }
      { ex_ows with layers := [] } ex_req_xml ex_cgi_bad_version []
      = .error ⟨.OWS_ERROR_INVALID_PARAMETER_VALUE,
          "VERSION parameter is not valid (use x.y.z)", "version"⟩ :=
  (C12_stage_order ex_env_xml ex_ows ex_req_xml ex_cgi_bad_version []).2.2.2.1 _ (by decide) []
    [] (fun _ _ => false) (fun _ => false) (fun _ _ _ => 1)

/-- C13: whenever `ows_request_check` completes without error, the service
of the request is WMS or WFS and not the unknown one, whatever the request
record held before; and an input whose service does not resolve fails. -/
theorem C13_service_resolved (env : ows_env) (o : ows) (req : ows_request) (cgi : array)
    (query : buffer) :
    (∀ r, ows_request_check env o req cgi query = .ok r →
      (r.service = .WMS ∨ r.service = .WFS) ∧ r.service ≠ .OWS_SERVICE_UNKNOWN) ∧
    (∀ e, check_service env o cgi = .error e →
      ows_request_check env o req cgi query = .error e) := by
  refine ⟨fun r h => ?_, fun e h => request_check_of_service_error env o req cgi query e h⟩
  obtain ⟨service, b, version, st, hn, _, _, hr⟩ := request_check_ok_inv env o req cgi query r h
  have hs := (negotiate_ok_inv env o req.method cgi service b version hn).1
  have hsv := check_service_ok env o cgi service hs
  subst hr
  rcases hsv with h1 | h1 <;> simp [h1]

/-- Witness of C13: the admitted capabilities request of a posted form
leaves the service WFS. -/
theorem C13_service_resolved_witness :
    ((⟨some ⟨0, 0, 0⟩, .WFS, .OWS_METHOD_KVP⟩ : ows_request).service = .WMS ∨
      (⟨some ⟨0, 0, 0⟩, .WFS, .OWS_METHOD_KVP⟩ : ows_request).service = .WFS) ∧
    (⟨some ⟨0, 0, 0⟩, .WFS, .OWS_METHOD_KVP⟩ : ows_request).service ≠ .OWS_SERVICE_UNKNOWN :=
  (C13_service_resolved ex_env_form ex_ows ex_req_kvp ex_cgi_capabilities []).1 _ (by decide)

/-- C14 as stated fails: the value -1 does not tell a schema that failed
to load from a document that failed to parse. With a schema that parses
and a document that does not (here the empty one), `ows_schema_validation`
returns -1, the value it returns for a schema that does not parse. -/
theorem C14_counterexample :
    ex_env_bad_doc.xmlSchemaParse true "wfs.xsd".toList = true ∧
    ex_env_bad_doc.xmlParseMemory [] = false ∧
    ows_schema_validation ex_env_bad_doc "wfs.xsd".toList [] true = -1 := by
  decide

/-- C14 (amended): the outcome of `ows_schema_validation`. It is -1 when
the schema does not parse, and also when the schema parses and the document
does not; when both parse it is the value of `xmlSchemaValidateDoc`. So it
is 0 exactly when schema and document parse and the validation gives 0. -/
theorem C14_validation_outcome (env : ows_env) (xml_schema xml : buffer)
    (schema_is_file : Bool) :
    (env.xmlSchemaParse schema_is_file xml_schema = false →
      ows_schema_validation env xml_schema xml schema_is_file = -1) ∧
    (env.xmlSchemaParse schema_is_file xml_schema = true → env.xmlParseMemory xml = false →
      ows_schema_validation env xml_schema xml schema_is_file = -1) ∧
    (env.xmlSchemaParse schema_is_file xml_schema = true → env.xmlParseMemory xml = true →
      ows_schema_validation env xml_schema xml schema_is_file
        = env.xmlSchemaValidateDoc schema_is_file xml_schema xml) ∧
    (ows_schema_validation env xml_schema xml schema_is_file = 0 ↔
      env.xmlSchemaParse schema_is_file xml_schema = true ∧ env.xmlParseMemory xml = true ∧
        env.xmlSchemaValidateDoc schema_is_file xml_schema xml = 0) := by
  unfold ows_schema_validation
  refine ⟨fun h => by simp [h], fun h1 h2 => by simp [h1, h2], fun h1 h2 => by simp [h1, h2], ?_⟩
  cases h1 : env.xmlSchemaParse schema_is_file xml_schema <;>
    cases h2 : env.xmlParseMemory xml <;> simp

/-- Witness of C14: with a schema and a document that parse, the outcome is
the value 1 of the validation. -/
theorem C14_validation_outcome_witness :
    ows_schema_validation ex_env_invalid "wfs.xsd".toList "<GetFeature/>".toList true
      = ex_env_invalid.xmlSchemaValidateDoc true "wfs.xsd".toList "<GetFeature/>".toList :=
  (C14_validation_outcome ex_env_invalid "wfs.xsd".toList "<GetFeature/>".toList true).2.2.1
    rfl rfl

/-- C15 as stated fails: the text "0.0.0" has three segments of digits and
parses to the sentinel (0,0,0) itself, and `ows_request_check` then
negotiates the sentinel for a request that did supply a version. A number
that does not fit an `int` can give it too: "4294967296.0.0" parses to
(0,0,0). -/
theorem C15_counterexample :
    ows_request_check_version "0.0.0".toList = .ok ⟨0, 0, 0⟩ ∧
    negotiate ex_env_xml ex_ows ex_req_xml.method
        [("service".toList, "WFS".toList), ("request".toList, "GetFeature".toList),
         ("version".toList, "0.0.0".toList)]
      = .ok (.WFS, "GetFeature".toList, ⟨0, 0, 0⟩) ∧
    ows_request_check_version "4294967296.0.0".toList = .ok ⟨0, 0, 0⟩ := by
  decide

/-- C15 (amended): the sentinel and the parsed versions. A non-empty version
text that `ows_request_check_version` parses has three segments of digits.
If the three are made of the digit 0 only, the triple is the sentinel
(0,0,0); a triple equal to the sentinel comes only from segments that are
made of zeros or whose decimal value is above 2147483647; so when the three
values are at most 2147483647 the triple is the sentinel exactly when the
segments are made of zeros. And the version negotiated for a request that
supplies this text is the parsed triple, sentinel included. -/
theorem C15_sentinel (t : buffer) (ht : t ≠ []) (v : ows_version)
    (h : ows_request_check_version t = .ok v) :
    ∃ s1 s2 s3, list_explode '.' t = [s1, s2, s3] ∧
      all_digits s1 = true ∧ all_digits s2 = true ∧ all_digits s3 = true ∧
      (all_zeros s1 = true → all_zeros s2 = true → all_zeros s3 = true → v = ⟨0, 0, 0⟩) ∧
      (v = ⟨0, 0, 0⟩ →
        (all_zeros s1 = true ∨ 2 ^ 31 ≤ decimal_value s1) ∧
        (all_zeros s2 = true ∨ 2 ^ 31 ≤ decimal_value s2) ∧
        (all_zeros s3 = true ∨ 2 ^ 31 ≤ decimal_value s3)) ∧
      (decimal_value s1 < 2 ^ 31 → decimal_value s2 < 2 ^ 31 → decimal_value s3 < 2 ^ 31 →
        (v = ⟨0, 0, 0⟩ ↔
          all_zeros s1 = true ∧ all_zeros s2 = true ∧ all_zeros s3 = true)) ∧
      (∀ (env : ows_env) (o : ows) (method : ows_method) (cgi : array)
        (service : ows_service) (b : buffer) (v2 : ows_version),
        array_get cgi "version" = some t →
        negotiate env o method cgi = .ok (service, b, v2) → v2 = v) := by
  have h0 := h
  rw [check_version_eq t ht] at h
  split at h
  · rename_i s1 s2 s3 hx
    by_cases hd : (all_digits s1 && all_digits s2 && all_digits s3) = true
    · simp only [hd, if_true, Except.ok.injEq] at h
      simp only [Bool.and_eq_true] at hd
      obtain ⟨⟨d1, d2⟩, d3⟩ := hd
      subst h
      have hzero : all_zeros s1 = true → all_zeros s2 = true → all_zeros s3 = true →
          (⟨atoi s1, atoi s2, atoi s3⟩ : ows_version) = ⟨0, 0, 0⟩ := by
        intro z1 z2 z3
        rw [atoi_zero_of_zeros s1 d1 z1, atoi_zero_of_zeros s2 d2 z2,
          atoi_zero_of_zeros s3 d3 z3]
      have hback : (⟨atoi s1, atoi s2, atoi s3⟩ : ows_version) = ⟨0, 0, 0⟩ →
          (all_zeros s1 = true ∨ 2 ^ 31 ≤ decimal_value s1) ∧
          (all_zeros s2 = true ∨ 2 ^ 31 ≤ decimal_value s2) ∧
          (all_zeros s3 = true ∨ 2 ^ 31 ≤ decimal_value s3) := by
        intro hv
        simp only [ows_version.mk.injEq] at hv
        exact ⟨zeros_of_atoi_zero s1 d1 hv.1, zeros_of_atoi_zero s2 d2 hv.2.1,
          zeros_of_atoi_zero s3 d3 hv.2.2⟩
      refine ⟨s1, s2, s3, hx, d1, d2, d3, hzero, hback, fun b1 b2 b3 => ⟨fun hv => ?_,
        fun hz => hzero hz.1 hz.2.1 hz.2.2⟩, ?_⟩
      · obtain ⟨q1, q2, q3⟩ := hback hv
        refine ⟨?_, ?_, ?_⟩
        · rcases q1 with q | q
          · exact q
          · omega
        · rcases q2 with q | q
          · exact q
          · omega
        · rcases q3 with q | q
          · exact q
          · omega
      · intro env o method cgi service b v2 hget hneg
        have hv2 := (negotiate_ok_inv env o method cgi service b v2 hneg).2.2
        have he : buffer_cmp t "" = false := by
          cases hb : buffer_cmp t "" with
          | false => rfl
          | true => exact (ht ((buffer_cmp_empty t).mp hb)).elim
        unfold check_version at hv2
        simp only [hget, he, Bool.false_eq_true, if_false] at hv2
        rw [h0] at hv2
        exact (Except.ok.inj hv2).symm
    · simp [hd] at h
  · cases h

/-- Witness of C15: "0.0.0" parses to the sentinel, from three segments made
of zeros. -/
theorem C15_sentinel_witness :
    ∃ s1 s2 s3, list_explode '.' "0.0.0".toList = [s1, s2, s3] ∧
      all_digits s1 = true ∧ all_digits s2 = true ∧ all_digits s3 = true ∧
      (all_zeros s1 = true → all_zeros s2 = true → all_zeros s3 = true →
        (⟨0, 0, 0⟩ : ows_version) = ⟨0, 0, 0⟩) ∧
      ((⟨0, 0, 0⟩ : ows_version) = ⟨0, 0, 0⟩ →
        (all_zeros s1 = true ∨ 2 ^ 31 ≤ decimal_value s1) ∧
        (all_zeros s2 = true ∨ 2 ^ 31 ≤ decimal_value s2) ∧
        (all_zeros s3 = true ∨ 2 ^ 31 ≤ decimal_value s3)) ∧
      (decimal_value s1 < 2 ^ 31 → decimal_value s2 < 2 ^ 31 → decimal_value s3 < 2 ^ 31 →
        ((⟨0, 0, 0⟩ : ows_version) = ⟨0, 0, 0⟩ ↔
          all_zeros s1 = true ∧ all_zeros s2 = true ∧ all_zeros s3 = true)) ∧
      (∀ (env : ows_env) (o : ows) (method : ows_method) (cgi : array)
        (service : ows_service) (b : buffer) (v2 : ows_version),
        array_get cgi "version" = some "0.0.0".toList →
        negotiate env o method cgi = .ok (service, b, v2) → v2 = ⟨0, 0, 0⟩) :=
  C15_sentinel "0.0.0".toList (by decide) ⟨0, 0, 0⟩ (by decide)

/-- C16 as stated fails on the empty text: `ows_request_check_version`
does not reject it, it sets the version to (0,0,0) (lines 216-217). -/
theorem C16_counterexample :
    ows_request_check_version "".toList = .ok ⟨0, 0, 0⟩ ∧
    ows_request_check_version "".toList ≠ .error version_error := by
  decide

/-- C16 (amended): the texts "1.0", "a.b.c" and "1.1.0.0" are rejected by
`ows_request_check_version` with InvalidParameterValue, locator "version",
and yield no version; the empty text is not rejected: it yields the
sentinel (0,0,0). -/
theorem C16_malformed_versions :
    ows_request_check_version "1.0".toList
      = .error ⟨.OWS_ERROR_INVALID_PARAMETER_VALUE,
          "VERSION parameter is not valid (use x.y.z)", "version"⟩ ∧
    ows_request_check_version "a.b.c".toList
      = .error ⟨.OWS_ERROR_INVALID_PARAMETER_VALUE,
          "VERSION parameter is not valid (use x.y.z)", "version"⟩ ∧
    ows_request_check_version "1.1.0.0".toList
      = .error ⟨.OWS_ERROR_INVALID_PARAMETER_VALUE,
          "VERSION parameter is not valid (use x.y.z)", "version"⟩ ∧
    ows_request_check_version "".toList = .ok ⟨0, 0, 0⟩ := by
  decide

/-! ## Claims on the flag of the layer scan, the request name and the length test -/

/-- C17 as stated fails: the error is raised although the SRS name matches
an SRID entry of a layer called `typename`. In the catalog of
`ex_ows_two_roads` the first layer `roads` declares 27582 and the second
layer `roads` declares 4326; the request for `roads` in EPSG:4326 matches
the entry of the second layer and is refused at the first one. -/
theorem C17_counterexample :
    ows_request_check ex_env_xml ex_ows_two_roads ex_req_xml ex_cgi_epsg "<GetFeature/>".toList
      = .error ⟨.OWS_ERROR_CONFIG_FILE, "srsname doesn't match srid", "config_file"⟩ ∧
    array_get ex_cgi_epsg "srsname" = some "EPSG:4326".toList ∧
    ex_layer_roads ∈ ex_ows_two_roads.layers ∧
    array_get ex_cgi_epsg "typename" = ex_layer_roads.name ∧
    ex_layer_roads.srid = some ["4326".toList] ∧
    check_regexp "EPSG:4326".toList "4326".toList = true := by
  refine ⟨?_, ?_, ?_, ?_, ?_, ?_⟩
  all_goals decide

/-- C17 (amended): the flag of the SRS check. The error "srsname doesn't
match srid" is the result of `ows_request_check` only if negotiation
passed, the request has `srsname` and `typename`, the name it gives is
table-backed, and the `srsname` value matches no entry of the SRID list of
the first layer in catalog order whose name equals `typename` and that
declares an SRID list. So a match on that first layer keeps the error from
being raised for the request, also at the later layers of that name; a
match on a later layer does not. -/
theorem C17_srs_flag (env : ows_env) (o : ows) (req : ows_request) (cgi : array)
    (query : buffer) :
    (ows_request_check env o req cgi query
        = .error ⟨.OWS_ERROR_CONFIG_FILE, "srsname doesn't match srid", "config_file"⟩ →
      ∃ service b version srs tn l srids,
        negotiate env o req.method cgi = .ok (service, b, version) ∧
        array_get cgi "srsname" = some srs ∧ array_get cgi "typename" = some tn ∧
        env.ows_layer_match_table tn = true ∧
        o.layers.find? (fun x => decide (x.name = some tn) && x.srid.isSome) = some l ∧
        l.srid = some srids ∧ ∀ p ∈ srids, check_regexp srs p = false) ∧
    (∀ srs tn l srids p, array_get cgi "srsname" = some srs →
      array_get cgi "typename" = some tn →
      o.layers.find? (fun x => decide (x.name = some tn) && x.srid.isSome) = some l →
      l.srid = some srids → p ∈ srids → check_regexp srs p = true →
      ows_request_check env o req cgi query
        ≠ .error ⟨.OWS_ERROR_CONFIG_FILE, "srsname doesn't match srid", "config_file"⟩) := by
  have hinv : ows_request_check env o req cgi query = .error srs_nomatch_error →
      ∃ service b version srs tn l srids,
        negotiate env o req.method cgi = .ok (service, b, version) ∧
        array_get cgi "srsname" = some srs ∧ array_get cgi "typename" = some tn ∧
        env.ows_layer_match_table tn = true ∧
        o.layers.find? (fun x => decide (x.name = some tn) && x.srid.isSome) = some l ∧
        l.srid = some srids ∧ ∀ p ∈ srids, check_regexp srs p = false := by
    intro h
    obtain ⟨service, b, version, hn, hl⟩ :=
      request_check_config_inv env o req cgi query srs_nomatch_error h rfl
    obtain ⟨srs, tn, l, srids, h1, h2, h3, h4, h5, h6⟩ :=
      check_layers_nomatch_inv env service cgi o.layers b hl
    exact ⟨service, b, version, srs, tn, l, srids, hn, h1, h2, h3, h4, h5, h6⟩
  refine ⟨hinv, fun srs tn l srids p hsrs htn hfirst hsrid hp hm h => ?_⟩
  obtain ⟨_, _, _, srs2, tn2, l2, srids2, _, h1, h2, _, h4, h5, h6⟩ := hinv h
  rw [hsrs] at h1
  rw [htn] at h2
  have e1 := Option.some.inj h1
  have e2 := Option.some.inj h2
  subst e1 e2
  rw [hfirst] at h4
  have e3 := Option.some.inj h4
  subst e3
  rw [hsrid] at h5
  have e4 := Option.some.inj h5
  subst e4
  rw [h6 p hp] at hm
  cases hm

/-- Witness of C17: on the catalog of `ex_ows`, whose first layer `roads`
declares 4326, the request for `roads` in EPSG:4326 does not get the error. -/
theorem C17_srs_flag_witness :
    ows_request_check ex_env_xml ex_ows ex_req_xml ex_cgi_epsg "<GetFeature/>".toList
      ≠ .error ⟨.OWS_ERROR_CONFIG_FILE, "srsname doesn't match srid", "config_file"⟩ :=
  (C17_srs_flag ex_env_xml ex_ows ex_req_xml ex_cgi_epsg "<GetFeature/>".toList).2
    "EPSG:4326".toList "roads".toList ex_layer_roads ["4326".toList] "4326".toList
    (by decide) (by decide) (by decide) rfl (by decide) (by decide)

/-- The two scans do differ when two layers share the name the request
gives: with the layers `roads` (4326) and `roads` (27582) in this order the
one flag admits the request, the flag of each layer refuses it. -/
theorem reset_scan_differs :
    ows_request_check ex_env_xml
        { ex_ows with layers := [ex_layer_roads, { ex_layer_roads with srid := some ["27582".toList] }] }
        ex_req_xml ex_cgi_epsg "<GetFeature/>".toList
      = .ok { version := some ⟨1, 1, 0⟩, service := .WFS, method := .OWS_METHOD_XML } ∧
    ows_request_check_reset ex_env_xml
        { ex_ows with layers := [ex_layer_roads, { ex_layer_roads with srid := some ["27582".toList] }] }
        ex_req_xml ex_cgi_epsg "<GetFeature/>".toList
      = .error srs_nomatch_error := by
  constructor <;> decide

/-- C18: for a catalog whose layer names are pairwise distinct, the layer
scan with its one flag for the whole catalog and the variant with the flag
set back to false at each layer give the same error or the same success,
and so do `ows_request_check` and its variant; the same holds as soon as no
two layers have the name that `typename` gives, so the two can differ only
when two layers share that name. -/
theorem C18_flag_scope (env : ows_env) (o : ows) (req : ows_request) (cgi : array)
    (query : buffer) :
    (o.layers.Pairwise (fun x y => x.name ≠ y.name) →
      ∀ service b,
        scan_outcome (check_layers env service cgi o.layers (b, false))
          = scan_outcome (check_layers_reset env service cgi o.layers (b, false))) ∧
    (o.layers.Pairwise (fun x y => x.name ≠ y.name) →
      ows_request_check_reset env o req cgi query = ows_request_check env o req cgi query) ∧
    (o.layers.Pairwise (fun x y => ¬ (is_typename cgi x ∧ is_typename cgi y)) →
      ows_request_check_reset env o req cgi query = ows_request_check env o req cgi query) := by
  have himp : o.layers.Pairwise (fun x y => x.name ≠ y.name) →
      o.layers.Pairwise (fun x y => ¬ (is_typename cgi x ∧ is_typename cgi y)) := by
    intro hp
    refine hp.imp ?_
    intro x y hxy ⟨hx, hy⟩
    exact hxy (hx.2.symm.trans hy.2)
  have hmain : o.layers.Pairwise (fun x y => ¬ (is_typename cgi x ∧ is_typename cgi y)) →
      ows_request_check_reset env o req cgi query = ows_request_check env o req cgi query := by
    intro hp
    unfold ows_request_check_reset ows_request_check before_schema
    cases hn : negotiate env o req.method cgi with
    | error e => rfl
    | ok t =>
      obtain ⟨service, b, version⟩ := t
      have ho := check_layers_reset_outcome env service cgi o.layers b false false hp
        (fun h => by cases h)
      simp only
      cases h1 : check_layers env service cgi o.layers (b, false) with
      | error e1 =>
        cases h2 : check_layers_reset env service cgi o.layers (b, false) with
        | error e2 =>
          rw [h1, h2] at ho
          simp only [scan_outcome, Except.error.injEq] at ho
          rw [ho]
        | ok st2 =>
          rw [h1, h2] at ho
          simp [scan_outcome] at ho
      | ok st1 =>
        cases h2 : check_layers_reset env service cgi o.layers (b, false) with
        | error e2 =>
          rw [h1, h2] at ho
          simp [scan_outcome] at ho
        | ok st2 =>
          rw [h1, h2] at ho
          simp only [scan_outcome, Except.ok.injEq] at ho
          simp only [ho]
  exact ⟨fun hp service b => check_layers_reset_outcome env service cgi o.layers b false false
    (himp hp) (fun h => by cases h), fun hp => hmain (himp hp), hmain⟩

/-- Witness of C18: the catalog of `ex_ows_roads_lakes` has the two layers
`roads` and `lakes`. The request for `roads` in EPSG:4326 sets the flag at
`roads`; the one-flag scan carries it to `lakes`, the other scan does not,
and both admit the request. -/
theorem C18_flag_scope_witness :
    ex_ows_roads_lakes.layers.Pairwise (fun x y => x.name ≠ y.name) ∧
    check_layers ex_env_xml .WFS ex_cgi_epsg ex_ows_roads_lakes.layers
        ("GetFeature".toList, false) = .ok ("EPSG:4326".toList, true) ∧
    check_layers_reset ex_env_xml .WFS ex_cgi_epsg ex_ows_roads_lakes.layers
        ("GetFeature".toList, false) = .ok ("EPSG:4326".toList, false) ∧
    scan_outcome (check_layers ex_env_xml .WFS ex_cgi_epsg ex_ows_roads_lakes.layers
        ("GetFeature".toList, false))
      = scan_outcome (check_layers_reset ex_env_xml .WFS ex_cgi_epsg ex_ows_roads_lakes.layers
        ("GetFeature".toList, false)) ∧
    ows_request_check_reset ex_env_xml ex_ows_roads_lakes ex_req_xml ex_cgi_epsg
        "<GetFeature/>".toList
      = ows_request_check ex_env_xml ex_ows_roads_lakes ex_req_xml ex_cgi_epsg
        "<GetFeature/>".toList :=
  have hp : ex_ows_roads_lakes.layers.Pairwise (fun x y => x.name ≠ y.name) := by decide
  have hc := C18_flag_scope ex_env_xml ex_ows_roads_lakes ex_req_xml ex_cgi_epsg
    "<GetFeature/>".toList
  ⟨hp, by decide, by decide, hc.1 hp .WFS "GetFeature".toList, hc.2.1 hp⟩

/-- C19: when the service resolves and the parameters have no `request`
key, `ows_request_check` fails with MissingParameter, locator REQUEST,
whatever the version parameter, the catalog and the body are; and no input
without `request` key is admitted. -/
theorem C19_request_missing (env : ows_env) (o : ows) (req : ows_request) (cgi : array)
    (query : buffer) (hr : array_is_key cgi "request" = false) :
    (∀ service, check_service env o cgi = .ok service →
      ows_request_check env o req cgi query
        = .error ⟨.OWS_ERROR_MISSING_PARAMETER_VALUE, "REQUEST is not set", "REQUEST"⟩) ∧
    (∀ r, ows_request_check env o req cgi query ≠ .ok r) := by
  have hreq : check_request cgi
      = .error ⟨.OWS_ERROR_MISSING_PARAMETER_VALUE, "REQUEST is not set", "REQUEST"⟩ := by
    simp [check_request, array_get_none_of_not_key hr]
  refine ⟨fun service hs => ?_, fun r h => ?_⟩
  · simp [ows_request_check, before_schema, negotiate, hs, hreq]
  · obtain ⟨service, b, version, _, hn, _, _, _⟩ := request_check_ok_inv env o req cgi query r h
    have h2 := (negotiate_ok_inv env o req.method cgi service b version hn).2.1
    rw [hreq] at h2
    cases h2

/-- Witness of C19: a posted request with service and version but without
`request` is refused. -/
theorem C19_request_missing_witness :
    ows_request_check ex_env_xml ex_ows ex_req_xml ex_cgi_no_request []
      = .error ⟨.OWS_ERROR_MISSING_PARAMETER_VALUE, "REQUEST is not set", "REQUEST"⟩ :=
  (C19_request_missing ex_env_xml ex_ows ex_req_xml ex_cgi_no_request [] (by decide)).1 .WFS
    (by decide)

/-- C20: the length test of `ows_request_check_version` is redundant. The
parser without the test gives the same result, error or triple, on every
text; and it rejects every non-empty text shorter than 5 characters by the
split into three segments and the digit test. -/
theorem C20_length_test_redundant :
    (∀ t : buffer, ows_request_check_version_nolen t = ows_request_check_version t) ∧
    (∀ t : buffer, t ≠ [] → t.length < 5 →
      ows_request_check_version_nolen t
        = .error ⟨.OWS_ERROR_INVALID_PARAMETER_VALUE,
            "VERSION parameter is not valid (use x.y.z)", "version"⟩) := by
  have heq : ∀ t : buffer, ows_request_check_version_nolen t = ows_request_check_version t := by
    intro t
    by_cases ht : t = []
    · subst ht
      rfl
    · have he : buffer_cmp t "" = false := by
        cases h : buffer_cmp t "" with
        | false => rfl
        | true => exact (ht ((buffer_cmp_empty t).mp h)).elim
      rw [check_version_eq t ht]
      unfold ows_request_check_version_nolen
      simp only [he, Bool.false_eq_true, if_false, check_regexp_digits]
  refine ⟨heq, fun t ht hlen => ?_⟩
  rw [heq t]
  have he : buffer_cmp t "" = false := by
    cases h : buffer_cmp t "" with
    | false => rfl
    | true => exact (ht ((buffer_cmp_empty t).mp h)).elim
  unfold ows_request_check_version
  simp only [he, Bool.false_eq_true, if_false, hlen, if_true]
  rfl

/-- Witness of C20: the text "1.0" is rejected without the length test. -/
theorem C20_length_test_redundant_witness :
    ows_request_check_version_nolen "1.0".toList
      = .error ⟨.OWS_ERROR_INVALID_PARAMETER_VALUE,
          "VERSION parameter is not valid (use x.y.z)", "version"⟩ :=
  C20_length_test_redundant.2 "1.0".toList (by decide) (by decide)

end TinyOWS
